import Mathlib

/-!
Verification development for the funding-dsl repository.

The definitions below are a shallow embedding of the textual parser
(`textual/funding_dsl_parser.py`) and of the metamodel
(`metamodel/funding_metamodel.py`).  Source text is modelled as `List Char`;
Python floats are modelled as `Rat` (all numeric literals appearing in the
claims are exactly representable); Python `None` is modelled with `Option`;
raised exceptions are modelled with `Except`.  Each definition carries the
name of the Python entity it is translated from.
-/

set_option maxRecDepth 8000
set_option synthInstance.maxSize 512
set_option linter.unusedVariables false

namespace FundingDSL

abbrev Chars := List Char

/-- The character `{` (written via its code point to keep it out of literals). -/
def lbrace : Char := Char.ofNat 123

/-- The character `}`. -/
def rbrace : Char := Char.ofNat 125

/-- The character `"`. -/
def dq : Char := Char.ofNat 34

/-- Python regex `\s` over the ASCII source alphabet. -/
def isSpaceCh (c : Char) : Bool :=
  c = ' ' || c = '\t' || c = '\n' || c = '\r' || c = Char.ofNat 11 || c = Char.ofNat 12

/-- Python regex `[\d.]` over the ASCII source alphabet. -/
def isNumCh (c : Char) : Bool := c.isDigit || c = '.'

/-- Python regex `[A-Z]`. -/
def isUpperCh (c : Char) : Bool := 'A' ≤ c && c ≤ 'Z'

/-- Match a literal character sequence at the head of the input and return the
rest, `none` when the literal is not a prefix. -/
def litP : Chars → Chars → Option Chars
  | [], s => some s
  | _, [] => none
  | p :: ps, c :: cs => if c = p then litP ps cs else none

/-- Maximal run of at least one character satisfying `p` (regex `X+` for a
character class `X`); returns the run and the rest. -/
def tw1 (p : Char → Bool) (s : Chars) : Option (Chars × Chars) :=
  if s.takeWhile p = [] then none else some (s.takeWhile p, s.dropWhile p)

/-- Regex `\s+`. -/
def ws1 (s : Chars) : Option Chars := (tw1 isSpaceCh s).map (·.2)

/-- Regex `\s*`. -/
def ws0 (s : Chars) : Chars := s.dropWhile isSpaceCh

/-- Leftmost-match search: the first position (in characters) at which the
matcher `m` succeeds on the corresponding suffix, with the matcher's result.
This is `re.search` specialised to the patterns used by the parser, all of
whose quantified character classes are disjoint from what follows them, so
greedy maximal-munch matching is exact. -/
def searchM {A : Type} (m : Chars → Option A) : Chars → Option (Nat × A)
  | [] => (m []).map (fun a => (0, a))
  | c :: t =>
    match m (c :: t) with
    | some a => some (0, a)
    | none => (searchM m t).map (fun p => (p.1 + 1, p.2))

/-- Matcher for `{kw}\s+"([^"]+)"`, returning the capture
(`FundingDSLParser._extract_string_property`). -/
def matchStrPropAt (kw : Chars) (s : Chars) : Option Chars := do
  let s1 ← litP kw s
  let s2 ← ws1 s1
  let s3 ← litP [dq] s2
  let (name, s4) ← tw1 (fun c => !(c = dq)) s3
  let _ ← litP [dq] s4
  pure name

/-- Matcher for `{kw}\s+([A-Z]+)` (`_extract_keyword_property`). -/
def matchKwPropAt (kw : Chars) (s : Chars) : Option Chars := do
  let s1 ← litP kw s
  let s2 ← ws1 s1
  let (tok, _) ← tw1 isUpperCh s2
  pure tok

/-- Matcher for `{kw}\s+([\d.]+)` (`_extract_number_property`), returning the
matched numeric token before float conversion. -/
def matchNumAt (kw : Chars) (s : Chars) : Option Chars := do
  let s1 ← litP kw s
  let s2 ← ws1 s1
  let (tok, _) ← tw1 isNumCh s2
  pure tok

/-- Matcher for `{kw}\s+(true|false)` (`_extract_boolean_property`). -/
def matchBoolAt (kw : Chars) (s : Chars) : Option Bool := do
  let s1 ← litP kw s
  let s2 ← ws1 s1
  match litP ['t', 'r', 'u', 'e'] s2 with
  | some _ => pure true
  | none =>
    match litP ['f', 'a', 'l', 's', 'e'] s2 with
    | some _ => pure false
    | none => none

/-- Matcher for `{kw}\s+([\d.]+)\s+([A-Z]+)` (the `amount`, `target` and
`current` patterns of `_extract_tiers` / `_extract_goals`). -/
def matchAmountAt (kw : Chars) (s : Chars) : Option (Chars × Chars) := do
  let s1 ← litP kw s
  let s2 ← ws1 s1
  let (tok, s3) ← tw1 isNumCh s2
  let s4 ← ws1 s3
  let (cur, _) ← tw1 isUpperCh s4
  pure (tok, cur)

/-- Matcher for `{kw}\s*\{` (`_extract_balanced_block`), returning the text
immediately after the opening brace (the brace sits at `match.end() - 1`). -/
def matchBlockHeadAt (kw : Chars) (s : Chars) : Option Chars := do
  let s1 ← litP kw s
  let _ ← litP [lbrace] (ws0 s1)
  pure (ws0 s1).tail

/-- Matcher for `{kw}\s+"([^"]+)"\s*\{` (the per-item patterns of
`_extract_beneficiaries`, `_extract_sources`, `_extract_tiers`,
`_extract_goals`), returning the quoted name and the text after the brace. -/
def matchNamedAt (kw : Chars) (s : Chars) : Option (Chars × Chars) := do
  let s1 ← litP kw s
  let s2 ← ws1 s1
  let s3 ← litP [dq] s2
  let (name, s4) ← tw1 (fun c => !(c = dq)) s3
  let s5 ← litP [dq] s4
  let _ ← litP [lbrace] (ws0 s5)
  pure (name, (ws0 s5).tail)

/-- Matcher for `funding\s+"([^"]+)"\s*\{`, the top-level header pattern of
`_simple_parse`, returning the project name. -/
def matchFundingAt (s : Chars) : Option Chars :=
  (matchNamedAt "funding".data s).map (·.1)

/-- Matcher for `{kw}\s*\[(.*?)\]` with `re.DOTALL` (`_extract_string_list`):
lazy capture up to the first `]`. -/
def matchListAt (kw : Chars) (s : Chars) : Option Chars := do
  let s1 ← litP kw s
  let s2 ← litP ['['] (ws0 s1)
  if ']' ∈ s2 then pure (s2.takeWhile (fun c => !(c = ']'))) else none

/-- Matcher for `config\s*\{(.*?)\}` with `re.DOTALL`
(`_extract_config_block`): lazy capture up to the first `}`. -/
def matchConfigAt (s : Chars) : Option Chars := do
  let s1 ← litP ['c', 'o', 'n', 'f', 'i', 'g'] s
  let s2 ← litP [lbrace] (ws0 s1)
  if rbrace ∈ s2 then pure (s2.takeWhile (fun c => !(c = rbrace))) else none

/-- Brace-depth scan of `FundingDSLParser._extract_balanced_content`,
starting just after an opening brace with depth 1; `none` when the depth
never returns to zero. -/
def balAux : Nat → Chars → Option Chars
  | _, [] => none
  | d, c :: t =>
    if c = lbrace then (balAux (d + 1) t).map (fun r => c :: r)
    else if c = rbrace then
      if d = 1 then some [] else (balAux (d - 1) t).map (fun r => c :: r)
    else (balAux d t).map (fun r => c :: r)

/-- Content between balanced braces given the text immediately after the
opening brace; the empty string when the braces are unbalanced. -/
def balancedAfterBrace (t : Chars) : Chars := (balAux 1 t).getD []

/-- `FundingDSLParser._extract_balanced_content`: content strictly between the
brace at `startPos` and its matching closing brace; `""` when `startPos` is
out of range, not at a `{`, or the braces are unbalanced. -/
def extract_balanced_content (text : Chars) (startPos : Nat) : Chars :=
  match text.drop startPos with
  | [] => []
  | c :: t => if c = lbrace then balancedAfterBrace t else []

/-- `FundingDSLParser._extract_balanced_block`: locate the first
`{kw}\s*\{` and return the balanced content after its opening brace. -/
def extract_balanced_block (text : Chars) (kw : Chars) : Option Chars :=
  (searchM (matchBlockHeadAt kw) text).map (fun p => balancedAfterBrace p.2)

/-- Drop characters up to (but not including) the next newline. -/
def dropToNl : Chars → Chars
  | [] => []
  | c :: t => if c = '\n' then c :: t else dropToNl t

/-- Fuel-indexed scan of `stripLineComments`; the fuel only bounds the
number of steps and `stripLineComments` always supplies enough. -/
def stripLineGo : Nat → Chars → Chars
  | 0, _ => []
  | _ + 1, [] => []
  | f + 1, '/' :: '/' :: t => stripLineGo f (dropToNl t)
  | f + 1, c :: t => c :: stripLineGo f t

/-- `re.sub(r'//.*?$', '', text, flags=re.MULTILINE)`: remove every line
comment up to the end of its line (the newline itself is kept). -/
def stripLineComments (l : Chars) : Chars := stripLineGo (l.length + 1) l

/-- Position just after the first `*/`, if any. -/
def dropToStarSlash : Chars → Option Chars
  | [] => none
  | c :: t =>
    if c = '*' then
      match t with
      | '/' :: t2 => some t2
      | _ => dropToStarSlash t
    else dropToStarSlash t

/-- Fuel-indexed scan of `stripBlockComments`. -/
def stripBlockGo : Nat → Chars → Chars
  | 0, _ => []
  | _ + 1, [] => []
  | f + 1, '/' :: '*' :: t =>
    (match dropToStarSlash t with
     | some rest => stripBlockGo f rest
     | none => '/' :: stripBlockGo f ('*' :: t))
  | f + 1, c :: t => c :: stripBlockGo f t

/-- `re.sub(r'/\*.*?\*/', '', text, flags=re.DOTALL)`: remove every block
comment up to the first closing `*/`; an unterminated `/*` is left in
place (no match). -/
def stripBlockComments (l : Chars) : Chars := stripBlockGo (l.length + 1) l

/-- Comment stripping of `FundingDSLParser._simple_parse`: line comments
first, then block comments. -/
def stripComments (l : Chars) : Chars := stripBlockComments (stripLineComments l)

/-- Generic `re.finditer`-style scan: repeatedly find the leftmost match of
`m` (which consumes at least one character) and continue after it. -/
def scanAll {A : Type} (m : Chars → Option (A × Chars)) : Nat → Chars → List A
  | 0, _ => []
  | _ + 1, [] => []
  | fuel + 1, c :: t =>
    match m (c :: t) with
    | some (a, rest) => a :: scanAll m fuel rest
    | none => scanAll m fuel t

/-- Matcher for one `"([^"]+)"` occurrence, returning capture and rest. -/
def matchQuotedAt (s : Chars) : Option (Chars × Chars) := do
  let s1 ← litP [dq] s
  let (tok, s2) ← tw1 (fun c => !(c = dq)) s1
  let s3 ← litP [dq] s2
  pure (tok, s3)

/-- `re.finditer(r'"([^"]+)"', t)` as used by `_extract_string_list`. -/
def quotedStrings (t : Chars) : List Chars := scanAll matchQuotedAt (t.length + 1) t

/-- Matcher for one `"([^"]+)"\s+"([^"]+)"` occurrence
(`_extract_config_block` key-value pairs). -/
def matchKvAt (s : Chars) : Option ((Chars × Chars) × Chars) := do
  let s1 ← litP [dq] s
  let (k, s2) ← tw1 (fun c => !(c = dq)) s1
  let s3 ← litP [dq] s2
  let s4 ← ws1 s3
  let s5 ← litP [dq] s4
  let (v, s6) ← tw1 (fun c => !(c = dq)) s5
  let s7 ← litP [dq] s6
  pure ((k, v), s7)

/-- Python dict assignment `config[key] = value`: replace the value in place
if the key exists, otherwise append. -/
def dictInsert : List (Chars × Chars) → Chars → Chars → List (Chars × Chars)
  | [], k, v => [(k, v)]
  | (k0, v0) :: rest, k, v =>
    if k0 = k then (k0, v) :: rest else (k0, v0) :: dictInsert rest k v

/-- The key-value pairs of a config block, folded into a Python dict. -/
def kvDict (l : List (Chars × Chars)) : List (Chars × Chars) :=
  l.foldl (fun m p => dictInsert m p.1 p.2) []

/-- The repeat-extraction loop shared by `_extract_beneficiaries`,
`_extract_sources`, `_extract_tiers` and `_extract_goals`: find the next
`{kw} "name" {`, take the balanced content after the brace, and continue
just past the closing brace (`pos = start_pos + len(props_text) + 2`). -/
def namedBlocksLoop (kw : Chars) : Nat → Chars → List (Chars × Chars)
  | 0, _ => []
  | fuel + 1, s =>
    match searchM (matchNamedAt kw) s with
    | none => []
    | some (_, name, tail) =>
      let props := balancedAfterBrace tail
      (name, props) :: namedBlocksLoop kw fuel (tail.drop (props.length + 1))

/-- All `{kw} "name" { props }` items of a block's text, in match order. -/
def extractNamedBlocks (kw : Chars) (s : Chars) : List (Chars × Chars) :=
  namedBlocksLoop kw (s.length + 1) s

/-- Decimal digits to a natural number. -/
def digitsVal (l : Chars) : Nat := l.foldl (fun a c => a * 10 + (c.toNat - 48)) 0

/-- Python `float()` on a token matched by `[\d.]+`, as an exact rational:
fails (`ValueError`) exactly when the token has two or more dots or no
digit at all.  The exact decimal value is kept; whether the IEEE-754 double
it denotes is infinite is decided against `pyFloatInfThreshold` at the one
place the program consumes the float with `int()` (see `buildTier`). -/
def parseFloatToken (tok : Chars) : Option Rat :=
  let intPart := tok.takeWhile (fun c => !(c = '.'))
  match tok.dropWhile (fun c => !(c = '.')) with
  | [] => if tok = [] then none else some (digitsVal tok)
  | _ :: frac =>
    if '.' ∈ frac then none
    else if intPart = [] && frac = [] then none
    else some ((digitsVal intPart : Rat) + (digitsVal frac : Rat) / (10 : Rat) ^ frac.length)

/-- The overflow threshold of IEEE-754 double round-to-nearest-even: a
decimal value at or above `2^1024 - 2^970` (the midpoint between the
largest finite double and `2^1024`) converts to `inf` under Python
`float()`, e.g. `float('9'*309)`; `int()` of such a value raises
`OverflowError`. -/
def pyFloatInfThreshold : Rat := 2 ^ 1024 - 2 ^ 970

/-- Split on a separator character (every occurrence), keeping empty parts. -/
def splitOnCh (sep : Char) : Chars → List Chars
  | [] => [[]]
  | c :: t =>
    if c = sep then [] :: splitOnCh sep t
    else
      match splitOnCh sep t with
      | h :: r => (c :: h) :: r
      | [] => [[c]]

/-- Gregorian leap year. -/
def isLeap (y : Nat) : Bool := (y % 4 = 0 && y % 100 ≠ 0) || y % 400 = 0

/-- Days in a month. -/
def daysInMonth (y m : Nat) : Nat :=
  if m = 2 then (if isLeap y then 29 else 28)
  else if m = 4 || m = 6 || m = 9 || m = 11 then 30
  else 31

/-- `datetime.strptime(s, '%Y-%m-%d')` as an option: exactly four year
digits, one or two month/day digits, in-range month and calendar day
(`try/except ValueError` around it yields `none`). -/
def parseDateYMD (s : Chars) : Option (Nat × Nat × Nat) :=
  match splitOnCh '-' s with
  | [ys, ms, ds] =>
    if ys.length = 4 && ys.all Char.isDigit &&
        1 ≤ ms.length && ms.length ≤ 2 && ms.all Char.isDigit &&
        1 ≤ ds.length && ds.length ≤ 2 && ds.all Char.isDigit then
      if 1 ≤ digitsVal ys && 1 ≤ digitsVal ms && digitsVal ms ≤ 12 &&
          1 ≤ digitsVal ds && digitsVal ds ≤ daysInMonth (digitsVal ys) (digitsVal ms) then
        some (digitsVal ys, digitsVal ms, digitsVal ds)
      else none
    else none
  | _ => none

/-! ## Metamodel (`metamodel/funding_metamodel.py`) -/

/-- `FundingPlatform` enum. -/
inductive FundingPlatform
  | github_sponsors | patreon | open_collective | ko_fi | buy_me_a_coffee
  | liberapay | paypal | tidelift | issuehunt | community_bridge
  | polar | thanks_dev | custom
deriving DecidableEq

/-- The `.value` string of each `FundingPlatform` member. -/
def platformValue : FundingPlatform → Chars
  | .github_sponsors => "github".data
  | .patreon => "patreon".data
  | .open_collective => "open_collective".data
  | .ko_fi => "ko_fi".data
  | .buy_me_a_coffee => "buy_me_a_coffee".data
  | .liberapay => "liberapay".data
  | .paypal => "paypal".data
  | .tidelift => "tidelift".data
  | .issuehunt => "issuehunt".data
  | .community_bridge => "community_bridge".data
  | .polar => "polar".data
  | .thanks_dev => "thanks_dev".data
  | .custom => "custom".data

/-- `FundingType` enum. -/
inductive FundingType
  | one_time | recurring | both
deriving DecidableEq

/-- `CurrencyType` enum. -/
inductive CurrencyType
  | USD | EUR | GBP | CAD | AUD
deriving DecidableEq

/-- `FundingAmount` dataclass; `value` is a Python float, modelled as `Rat`. -/
structure FundingAmount where
  value : Rat
  currency : CurrencyType := .USD
deriving DecidableEq

/-- `Beneficiary` dataclass. -/
structure Beneficiary where
  name : Chars
  email : Option Chars := none
  github_username : Option Chars := none
  website : Option Chars := none
  description : Option Chars := none
deriving DecidableEq

/-- `FundingTier` dataclass. -/
structure FundingTier where
  name : Chars
  amount : FundingAmount
  description : Option Chars := none
  benefits : List Chars := []
  max_sponsors : Option Int := none
  is_active : Bool := true
deriving DecidableEq

/-- `FundingGoal` dataclass; `deadline` is a `datetime`, modelled by its
(year, month, day) triple. -/
structure FundingGoal where
  name : Chars
  target_amount : FundingAmount
  description : Option Chars := none
  deadline : Option (Nat × Nat × Nat) := none
  current_amount : FundingAmount := { value := 0 }
  is_reached : Bool := false
deriving DecidableEq

/-- `FundingGoal.progress_percentage`. -/
def FundingGoal.progress_percentage (g : FundingGoal) : Rat :=
  if g.target_amount.value = 0 then 0
  else min (g.current_amount.value / g.target_amount.value * 100) 100

/-- `FundingSource` dataclass.  The Python field `is_active` is annotated
`bool` with default `True`, but the field is dynamically typed and the
textual parser can store `None` in it, so it is modelled as `Option Bool`
(`none` = Python `None`). -/
structure FundingSource where
  platform : FundingPlatform
  username : Chars
  funding_type : FundingType := .both
  is_active : Option Bool := some true
  custom_url : Option Chars := none
  platform_specific_config : List (Chars × Chars) := []
deriving DecidableEq

/-- `FundingConfiguration` dataclass. -/
structure FundingConfiguration where
  project_name : Chars
  description : Option Chars := none
  beneficiaries : List Beneficiary := []
  funding_sources : List FundingSource := []
  tiers : List FundingTier := []
  goals : List FundingGoal := []
  preferred_currency : CurrencyType := .USD
  min_amount : Option FundingAmount := none
  max_amount : Option FundingAmount := none
deriving DecidableEq

/-- `FundingConfiguration.add_beneficiary` (a `list.append`). -/
def FundingConfiguration.add_beneficiary (c : FundingConfiguration)
    (b : Beneficiary) : FundingConfiguration :=
  { c with beneficiaries := c.beneficiaries ++ [b] }

/-- `FundingConfiguration.add_funding_source` (a `list.append`). -/
def FundingConfiguration.add_funding_source (c : FundingConfiguration)
    (s : FundingSource) : FundingConfiguration :=
  { c with funding_sources := c.funding_sources ++ [s] }

/-- `FundingConfiguration.add_tier` (a `list.append`). -/
def FundingConfiguration.add_tier (c : FundingConfiguration)
    (t : FundingTier) : FundingConfiguration :=
  { c with tiers := c.tiers ++ [t] }

/-- `FundingConfiguration.add_goal` (a `list.append`). -/
def FundingConfiguration.add_goal (c : FundingConfiguration)
    (g : FundingGoal) : FundingConfiguration :=
  { c with goals := c.goals ++ [g] }

/-! ## Validator (`FundingModelValidator.validate_configuration`) -/

/-- The closed registry set of the tidelift rule. -/
def validRegistries : List Chars :=
  ["npm".data, "pypi".data, "rubygems".data, "maven".data,
   "packagist".data, "nuget".data]

def msg_project : Chars := "Project name is required".data

def msg_beneficiary : Chars := "At least one beneficiary is required".data

def msg_source : Chars := "At least one funding source is required".data

def msg_username_for (p : FundingPlatform) : Chars :=
  "Username is required for ".data ++ platformValue p

def msg_custom_url : Chars := "Custom URL is required for custom platforms".data

def msg_tidelift_format : Chars :=
  "Tidelift username must be in format \x27platform-name/package-name\x27 (e.g., \x27npm/package-name\x27)".data

def msg_tidelift_registry : Chars :=
  "Tidelift platform name must be one of: npm, pypi, rubygems, maven, packagist, nuget".data

def msg_thanks_dev : Chars :=
  "Thanks.dev username must be in format \x27u/gh/username\x27".data

def msg_tier_unique : Chars := "Funding tier names must be unique".data

def msg_goal_unique : Chars := "Funding goal names must be unique".data

/-- The errors appended for a single funding source inside the
`for source in config.funding_sources` loop of `validate_configuration`. -/
def sourceErrors (s : FundingSource) : List Chars :=
  (if s.username = [] then [msg_username_for s.platform] else []) ++
  (if s.platform = .custom ∧ s.custom_url.getD [] = [] then [msg_custom_url] else []) ++
  (if s.platform = .tidelift then
    (if '/' ∈ s.username then
      (if s.username.takeWhile (fun c => !(c = '/')) ∈ validRegistries then []
       else [msg_tidelift_registry])
     else [msg_tidelift_format])
   else []) ++
  (if s.platform = .thanks_dev ∧ s.username.take 5 ≠ "u/gh/".data then
    [msg_thanks_dev]
   else [])

/-- `FundingModelValidator.validate_configuration`: all violations collected
into one list, in append order.  The Python uniqueness checks compare
`len(names)` with `len(set(names))`; `List.dedup` plays the role of `set`. -/
def validate_configuration (c : FundingConfiguration) : List Chars :=
  (if c.project_name = [] then [msg_project] else []) ++
  (if c.beneficiaries = [] then [msg_beneficiary] else []) ++
  (if c.funding_sources = [] then [msg_source] else []) ++
  (c.funding_sources.map sourceErrors).flatten ++
  (if (c.tiers.map (·.name)).dedup.length ≠ (c.tiers.map (·.name)).length then
    [msg_tier_unique]
   else []) ++
  (if (c.goals.map (·.name)).dedup.length ≠ (c.goals.map (·.name)).length then
    [msg_goal_unique]
   else [])

/-- `FundingModelValidator.is_valid_configuration`. -/
def is_valid_configuration (c : FundingConfiguration) : Bool :=
  (validate_configuration c).length = 0

/-! ## Parser (`textual/funding_dsl_parser.py`) -/

/-- `FundingDSLParser._extract_string_property`. -/
def extract_string_property (text kw : Chars) : Option Chars :=
  (searchM (matchStrPropAt kw) text).map (·.2)

/-- `FundingDSLParser._extract_keyword_property`. -/
def extract_keyword_property (text kw : Chars) : Option Chars :=
  (searchM (matchKwPropAt kw) text).map (·.2)

/-- The numeric token matched by `_extract_number_property`, before `float()`. -/
def extract_number_token (text kw : Chars) : Option Chars :=
  (searchM (matchNumAt kw) text).map (·.2)

/-- `FundingDSLParser._extract_number_property`: `float(...)` raises on a
matched token it cannot convert, modelled as `Except`. -/
def extract_number_property (text kw : Chars) : Except Chars (Option Rat) :=
  match extract_number_token text kw with
  | none => .ok none
  | some tok =>
    match parseFloatToken tok with
    | some v => .ok (some v)
    | none => .error ("could not convert string to float: ".data ++ tok)

/-- `FundingDSLParser._extract_boolean_property`. -/
def extract_boolean_property (text kw : Chars) : Option Bool :=
  (searchM (matchBoolAt kw) text).map (·.2)

/-- `FundingDSLParser._extract_string_list`. -/
def extract_string_list (text kw : Chars) : List Chars :=
  match searchM (matchListAt kw) text with
  | none => []
  | some (_, inner) => quotedStrings inner

/-- `FundingDSLParser._extract_config_block`. -/
def extract_config_block (text : Chars) : List (Chars × Chars) :=
  match searchM matchConfigAt text with
  | none => []
  | some (_, inner) => kvDict (scanAll matchKvAt (inner.length + 1) inner)

/-- The per-beneficiary dictionary built by `_extract_beneficiaries`. -/
structure BenData where
  name : Chars
  email : Option Chars
  github : Option Chars
  website : Option Chars
  description : Option Chars
deriving DecidableEq

/-- The per-source dictionary built by `_extract_sources`; the `type` and
`active` keys are always present (possibly `None`), the `url` key only for
the `custom` platform. -/
structure SourceData where
  platform : Chars
  username : Chars
  type : Option Chars
  active : Option Bool
  config : List (Chars × Chars)
  url : Option Chars := none
deriving DecidableEq

/-- The per-tier dictionary built by `_extract_tiers`; `amount` is the
(value, currency-token) pair. -/
structure TierData where
  name : Chars
  amount : Rat × Chars
  description : Option Chars
  max_sponsors : Option Rat
  benefits : List Chars
deriving DecidableEq

/-- The per-goal dictionary built by `_extract_goals`. -/
structure GoalData where
  name : Chars
  target_amount : Rat × Chars
  current_amount : Rat × Chars
  description : Option Chars
  deadline : Option Chars
deriving DecidableEq

/-- The dictionary returned by `_simple_parse`. -/
structure ConfigData where
  project_name : Chars
  description : Option Chars
  currency : Option Chars
  min_amount : Option Rat
  max_amount : Option Rat
  beneficiaries : List BenData
  sources : List SourceData
  tiers : List TierData
  goals : List GoalData
deriving DecidableEq

/-- `FundingDSLParser._extract_beneficiaries`. -/
def mkBenData (nb : Chars × Chars) : BenData :=
  { name := nb.1,
    email := extract_string_property nb.2 "email".data,
    github := extract_string_property nb.2 "github".data,
    website := extract_string_property nb.2 "website".data,
    description := extract_string_property nb.2 "description".data }

/-- `FundingDSLParser._extract_beneficiaries`: the `beneficiaries` balanced
block, then one dictionary per `beneficiary "name" { ... }` item. -/
def extract_beneficiaries (text : Chars) : List BenData :=
  match extract_balanced_block text "beneficiaries".data with
  | none => []
  | some bt =>
    if bt = [] then []
    else (extractNamedBlocks "beneficiary".data bt).map mkBenData

/-- The `all_platforms` keyword list of `_extract_sources`, in source order. -/
def platformKeywords : List Chars :=
  ["github_sponsors".data, "patreon".data, "ko_fi".data, "open_collective".data,
   "buy_me_a_coffee".data, "liberapay".data, "paypal".data, "tidelift".data,
   "issuehunt".data, "community_bridge".data, "polar".data, "thanks_dev".data,
   "custom".data]

/-- The per-source dictionary built inside the `_extract_sources` loop. -/
def mkSourceData (p : Chars) (nb : Chars × Chars) : SourceData :=
  { platform := p,
    username := nb.1,
    type := extract_keyword_property nb.2 "type".data,
    active := extract_boolean_property nb.2 "active".data,
    config := extract_config_block nb.2,
    url := if p = "custom".data then extract_string_property nb.2 "url".data else none }

/-- `FundingDSLParser._extract_sources`: the outer loop runs over the fixed
`all_platforms` list, and for each platform scans the whole `sources` block
text, so sources are grouped by platform keyword. -/
def extract_sources (text : Chars) : List SourceData :=
  match extract_balanced_block text "sources".data with
  | none => []
  | some st =>
    if st = [] then []
    else platformKeywords.flatMap
      (fun p => (extractNamedBlocks p st).map (mkSourceData p))

/-- The amount extraction of `_extract_tiers` / `_extract_goals`: value and
currency default to `0.0` / `'USD'` when the pattern does not match, and
`float()` raises on an unconvertible matched token. -/
def extractAmountWith (props kw : Chars) : Except Chars (Rat × Chars) :=
  match searchM (matchAmountAt kw) props with
  | none => .ok (0, "USD".data)
  | some (_, tok, cur) =>
    match parseFloatToken tok with
    | some v => .ok (v, cur)
    | none => .error ("could not convert string to float: ".data ++ tok)

/-- The per-tier dictionary built inside the `_extract_tiers` loop. -/
def mkTierData (nb : Chars × Chars) : Except Chars TierData := do
  let amount ← extractAmountWith nb.2 "amount".data
  let ms ← extract_number_property nb.2 "max_sponsors".data
  pure { name := nb.1,
         amount := amount,
         description := extract_string_property nb.2 "description".data,
         max_sponsors := ms,
         benefits := extract_string_list nb.2 "benefits".data }

/-- `FundingDSLParser._extract_tiers`. -/
def extract_tiers (text : Chars) : Except Chars (List TierData) :=
  match extract_balanced_block text "tiers".data with
  | none => .ok []
  | some tt =>
    if tt = [] then .ok []
    else (extractNamedBlocks "tier".data tt).mapM mkTierData

/-- The per-goal dictionary built inside the `_extract_goals` loop. -/
def mkGoalData (nb : Chars × Chars) : Except Chars GoalData := do
  let target ← extractAmountWith nb.2 "target".data
  let current ← extractAmountWith nb.2 "current".data
  pure { name := nb.1,
         target_amount := target,
         current_amount := current,
         description := extract_string_property nb.2 "description".data,
         deadline := extract_string_property nb.2 "deadline".data }

/-- `FundingDSLParser._extract_goals`. -/
def extract_goals (text : Chars) : Except Chars (List GoalData) :=
  match extract_balanced_block text "goals".data with
  | none => .ok []
  | some gt =>
    if gt = [] then .ok []
    else (extractNamedBlocks "goal".data gt).mapM mkGoalData

/-- `FundingDSLParser._simple_parse`: strip comments, require the top-level
`funding "<name>" {` header, then extract properties and blocks.  The only
operations that can raise inside a located funding block are the `float()`
conversions, threaded through `Except`. -/
def simple_parse (input : Chars) : Except Chars ConfigData := do
  let text := stripComments input
  match searchM matchFundingAt text with
  | none => .error "No funding block found".data
  | some (_, pname) => do
    let minA ← extract_number_property text "min_amount".data
    let maxA ← extract_number_property text "max_amount".data
    let tiers ← extract_tiers text
    let goals ← extract_goals text
    pure { project_name := pname,
           description := extract_string_property text "description".data,
           currency := extract_keyword_property text "currency".data,
           min_amount := minA,
           max_amount := maxA,
           beneficiaries := extract_beneficiaries text,
           sources := extract_sources text,
           tiers := tiers,
           goals := goals }

/-- The parser's `currency_mapping` dictionary. -/
def currencyMapping (s : Chars) : Option CurrencyType :=
  if s = "USD".data then some .USD
  else if s = "EUR".data then some .EUR
  else if s = "GBP".data then some .GBP
  else if s = "CAD".data then some .CAD
  else if s = "AUD".data then some .AUD
  else none

/-- The parser's `funding_type_mapping` dictionary. -/
def fundingTypeMapping (s : Chars) : Option FundingType :=
  if s = "one_time".data then some .one_time
  else if s = "recurring".data then some .recurring
  else if s = "both".data then some .both
  else none

/-- The parser's `platform_mapping` dictionary. -/
def platformMapping (s : Chars) : Option FundingPlatform :=
  if s = "github_sponsors".data then some .github_sponsors
  else if s = "patreon".data then some .patreon
  else if s = "ko_fi".data then some .ko_fi
  else if s = "open_collective".data then some .open_collective
  else if s = "buy_me_a_coffee".data then some .buy_me_a_coffee
  else if s = "liberapay".data then some .liberapay
  else if s = "paypal".data then some .paypal
  else if s = "tidelift".data then some .tidelift
  else if s = "issuehunt".data then some .issuehunt
  else if s = "community_bridge".data then some .community_bridge
  else if s = "polar".data then some .polar
  else if s = "thanks_dev".data then some .thanks_dev
  else if s = "custom".data then some .custom
  else none

/-- Beneficiary construction inside `_build_configuration`. -/
def buildBen (b : BenData) : Beneficiary :=
  { name := b.name, email := b.email, github_username := b.github,
    website := b.website, description := b.description }

/-- Funding-source construction inside `_build_configuration`:
`funding_type` falls back to `BOTH` for an absent or unmapped token;
`is_active` is `source_data.get('active', True)`, and since the `'active'`
key is always present (possibly `None`) this is exactly the stored value. -/
def buildSource (sd : SourceData) : FundingSource :=
  { platform := (platformMapping sd.platform).getD .custom,
    username := sd.username,
    funding_type :=
      match sd.type with
      | some t => (fundingTypeMapping t).getD .both
      | none => .both,
    is_active := sd.active,
    custom_url := sd.url,
    platform_specific_config := sd.config }

/-- Tier construction inside `_build_configuration`:
`int(tier_data['max_sponsors']) if tier_data.get('max_sponsors') else None`,
so a `0.0` count is dropped (falsy); `int()` truncates the non-negative
float, and raises `OverflowError` when the extracted count overflowed to
float infinity (its exact decimal value reached `pyFloatInfThreshold`). -/
def buildTier (td : TierData) : Except Chars FundingTier :=
  match td.max_sponsors with
  | some v =>
    if v = 0 then
      .ok { name := td.name,
            amount := { value := td.amount.1,
                        currency := (currencyMapping td.amount.2).getD .USD },
            description := td.description,
            benefits := td.benefits,
            max_sponsors := none }
    else if pyFloatInfThreshold ≤ v then
      .error "cannot convert float infinity to integer".data
    else
      .ok { name := td.name,
            amount := { value := td.amount.1,
                        currency := (currencyMapping td.amount.2).getD .USD },
            description := td.description,
            benefits := td.benefits,
            max_sponsors := some v.floor }
  | none =>
    .ok { name := td.name,
          amount := { value := td.amount.1,
                      currency := (currencyMapping td.amount.2).getD .USD },
          description := td.description,
          benefits := td.benefits,
          max_sponsors := none }

/-- Goal construction inside `_build_configuration`: a falsy deadline string
is skipped, and a `strptime` failure is silently dropped (`try/except`). -/
def buildGoal (gd : GoalData) : FundingGoal :=
  { name := gd.name,
    target_amount := { value := gd.target_amount.1,
                       currency := (currencyMapping gd.target_amount.2).getD .USD },
    current_amount := { value := gd.current_amount.1,
                        currency := (currencyMapping gd.current_amount.2).getD .USD },
    description := gd.description,
    deadline :=
      match gd.deadline with
      | none => none
      | some s => if s = [] then none else parseDateYMD s }

/-- The preferred currency chosen by `_build_configuration`:
`currency_mapping.get(config_data.get('currency', 'USD'), USD)` with the
`'currency'` key always present (possibly `None`). -/
def prefCurrencyOf (cd : ConfigData) : CurrencyType :=
  match cd.currency with
  | none => .USD
  | some t => (currencyMapping t).getD .USD

/-- The `if config_data.get('min_amount'):` truthiness guard of
`_build_configuration`: a missing or zero number leaves the limit unset. -/
def limitAmount (v? : Option Rat) (pref : CurrencyType) : Option FundingAmount :=
  match v? with
  | some v => if v = 0 then none else some { value := v, currency := pref }
  | none => none

/-- `FundingDSLParser._build_configuration`: defaults, truthiness guards on
`min_amount`/`max_amount`, and `add_*` appends in extraction order; the
tier loop can raise (`int()` overflow, see `buildTier`), in which case the
goal loop never runs. -/
def build_configuration (cd : ConfigData) : Except Chars FundingConfiguration := do
  let c0 : FundingConfiguration :=
    { project_name := cd.project_name,
      description := cd.description,
      preferred_currency := prefCurrencyOf cd,
      min_amount := limitAmount cd.min_amount (prefCurrencyOf cd),
      max_amount := limitAmount cd.max_amount (prefCurrencyOf cd) }
  let c1 := cd.beneficiaries.foldl (fun c b => c.add_beneficiary (buildBen b)) c0
  let c2 := cd.sources.foldl (fun c s => c.add_funding_source (buildSource s)) c1
  let c3 ← cd.tiers.foldlM (fun c t => (buildTier t).map c.add_tier) c2
  pure (cd.goals.foldl (fun c g => c.add_goal (buildGoal g)) c3)

/-- `FundingDSLParser.parse_text`: any exception raised by `_simple_parse`
or `_build_configuration` is re-raised as `ParseError("Parse error: ...")`. -/
def parse_text (input : String) : Except Chars FundingConfiguration :=
  match simple_parse input.data with
  | .ok cd =>
    match build_configuration cd with
    | .ok c => .ok c
    | .error e => .error ("Parse error: ".data ++ e)
  | .error e => .error ("Parse error: ".data ++ e)

/-! ## Specification-side predicates and statement helpers -/

/-- Dyck-balanced over braces: equally many closing and opening braces, and
no prefix with more closing than opening braces. -/
def BalancedBraces (mid : Chars) : Prop :=
  mid.count rbrace = mid.count lbrace ∧
  ∀ n < mid.length, (mid.take n).count rbrace ≤ (mid.take n).count lbrace

instance : DecidablePred BalancedBraces := fun mid =>
  inferInstanceAs (Decidable (_ ∧ _))

/-- Never-closing brace text (an unterminated block): every prefix has at
least as many opening as closing braces, so the depth opened by an
enclosing `{` never returns to zero. -/
def NeverClosed (t : Chars) : Prop :=
  ∀ n ≤ t.length, (t.take n).count rbrace ≤ (t.take n).count lbrace

instance : DecidablePred NeverClosed := fun t =>
  inferInstanceAs (Decidable (∀ n, _ → _))

/-- The item list a block-extraction pass iterates over: balanced block
content for `blockKw`, then one `(name, props)` pair per
`{itemKw} "name" { ... }` item. -/
def namedItems (text blockKw itemKw : Chars) : List (Chars × Chars) :=
  match extract_balanced_block text blockKw with
  | none => []
  | some bt => if bt = [] then [] else extractNamedBlocks itemKw bt

/-- The numeric token matched by the amount patterns, before `float()`. -/
def amount_token (props kw : Chars) : Option (Chars × Chars) :=
  (searchM (matchAmountAt kw) props).map (·.2)

/-- A numeric property token is present but rejected by `float()`. -/
def NumPropBad (text kw : Chars) : Prop :=
  ∃ tok, extract_number_token text kw = some tok ∧ parseFloatToken tok = none

/-- A tier block whose `amount` or `max_sponsors` token makes `float()`
raise. -/
def TierBad (nb : Chars × Chars) : Prop :=
  (∃ tok cur, amount_token nb.2 "amount".data = some (tok, cur) ∧
    parseFloatToken tok = none) ∨
  NumPropBad nb.2 "max_sponsors".data

/-- A tier block whose `max_sponsors` token converts to a truthy float that
overflowed to infinity, so that `int()` in the builder raises
`OverflowError`. -/
def TierOverflow (nb : Chars × Chars) : Prop :=
  ∃ tok v, extract_number_token nb.2 "max_sponsors".data = some tok ∧
    parseFloatToken tok = some v ∧ v ≠ 0 ∧ pyFloatInfThreshold ≤ v

/-- A goal block whose `target` or `current` token makes `float()` raise. -/
def GoalBad (nb : Chars × Chars) : Prop :=
  (∃ tok cur, amount_token nb.2 "target".data = some (tok, cur) ∧
    parseFloatToken tok = none) ∨
  (∃ tok cur, amount_token nb.2 "current".data = some (tok, cur) ∧
    parseFloatToken tok = none)

/-- A message of the tidelift username rule. -/
def isTideliftMsg (v : Chars) : Bool :=
  v == msg_tidelift_format || v == msg_tidelift_registry

/-- The tidelift check as the code performs it: the username contains a
slash and its first slash-separated segment is a valid registry. -/
def tideliftOk (u : Chars) : Prop :=
  '/' ∈ u ∧ u.takeWhile (fun c => !(c = '/')) ∈ validRegistries

instance : DecidablePred tideliftOk := fun u =>
  inferInstanceAs (Decidable (_ ∧ _))

/-- The tidelift username form as the specification words it:
`<package-registry>/<package-name>` with the registry from the closed set. -/
def SpecTideliftForm (u : Chars) : Prop :=
  ∃ reg pkg, reg ∈ validRegistries ∧ u = reg ++ '/' :: pkg

/-- A deadline string in `YYYY-MM-DD` form: four year digits, one or two
month and day digits, month and calendar day in range (what `strptime`
with `%Y-%m-%d` plus `datetime` construction accepts). -/
def SpecYMDForm (s : Chars) : Prop :=
  ∃ ys ms ds,
    s = ys ++ '-' :: ms ++ '-' :: ds ∧
    ys.length = 4 ∧ (∀ c ∈ ys, c.isDigit) ∧
    1 ≤ ms.length ∧ ms.length ≤ 2 ∧ (∀ c ∈ ms, c.isDigit) ∧
    1 ≤ ds.length ∧ ds.length ≤ 2 ∧ (∀ c ∈ ds, c.isDigit) ∧
    1 ≤ digitsVal ys ∧ 1 ≤ digitsVal ms ∧ digitsVal ms ≤ 12 ∧
    1 ≤ digitsVal ds ∧ digitsVal ds ≤ daysInMonth (digitsVal ys) (digitsVal ms)

/-- Canonical source text of one `{kw} "name" { props }` block. -/
def blockText (kw name props : Chars) : Chars :=
  kw ++ ' ' :: dq :: name ++ dq :: ' ' :: lbrace :: props ++ [rbrace]

/-- Source text made of whitespace-separated blocks of one keyword followed
by trailing text. -/
def buildText (kw : Chars) : List (Chars × Chars × Chars) → Chars → Chars
  | [], last => last
  | (sep, name, props) :: rest, last =>
    sep ++ blockText kw name props ++ buildText kw rest last

/-- Well-formedness of one `(separator, name, props)` triple for
`buildText`: whitespace separator, non-empty quote-free name, balanced
quote-free props. -/
def WfTriple (t : Chars × Chars × Chars) : Prop :=
  (∀ c ∈ t.1, isSpaceCh c = true) ∧
  t.2.1 ≠ [] ∧ (∀ c ∈ t.2.1, ¬ c = dq) ∧
  BalancedBraces t.2.2

instance : DecidablePred WfTriple := fun t =>
  inferInstanceAs (Decidable (_ ∧ _ ∧ _ ∧ _))

/-! ## Basic scanning lemmas -/

theorem takeWhile_append_all {p : Char → Bool} :
    ∀ (u : Chars) (x : Char) (v : Chars), (∀ c ∈ u, p c = true) → p x = false →
      (u ++ x :: v).takeWhile p = u := by
  intro u
  induction u with
  | nil =>
    intro x v _ hx
    simp [List.takeWhile_cons, hx]
  | cons c u ih =>
    intro x v hu hx
    have hc : p c = true := hu c (by simp)
    simp [List.takeWhile_cons, hc, ih x v (fun d hd => hu d (by simp [hd])) hx]

theorem dropWhile_append_all {p : Char → Bool} :
    ∀ (u : Chars) (x : Char) (v : Chars), (∀ c ∈ u, p c = true) → p x = false →
      (u ++ x :: v).dropWhile p = x :: v := by
  intro u
  induction u with
  | nil =>
    intro x v _ hx
    simp [List.dropWhile_cons, hx]
  | cons c u ih =>
    intro x v hu hx
    have hc : p c = true := hu c (by simp)
    simp [List.dropWhile_cons, hc, ih x v (fun d hd => hu d (by simp [hd])) hx]

theorem litP_self : ∀ (p r : Chars), litP p (p ++ r) = some r := by
  intro p
  induction p with
  | nil => intro r; simp [litP]
  | cons c p ih => intro r; simp [litP, ih]

theorem litP_eq_some : ∀ (p s r : Chars), litP p s = some r → s = p ++ r := by
  intro p
  induction p with
  | nil =>
    intro s r h
    simp [litP] at h
    simp [h]
  | cons c p ih =>
    intro s r h
    match s with
    | [] => simp [litP] at h
    | d :: s =>
      simp only [litP] at h
      split at h
      · rename_i hd
        subst hd
        simp [ih s r h]
      · cases h

theorem litP_none_head {k : Char} {kr : Chars} {c : Char} {s : Chars}
    (h : ¬ c = k) : litP (k :: kr) (c :: s) = none := by
  simp [litP, h]

theorem litP_nil_none {k : Char} {kr : Chars} : litP (k :: kr) [] = none := rfl

theorem tw1_eq_some {p : Char → Bool} {s tok r : Chars}
    (h : tw1 p s = some (tok, r)) :
    tok = s.takeWhile p ∧ r = s.dropWhile p ∧ tok ≠ [] := by
  unfold tw1 at h
  split at h
  · cases h
  · rename_i hne
    cases h
    exact ⟨rfl, rfl, hne⟩

theorem tw1_append {p : Char → Bool} {u : Chars} {x : Char} {v : Chars}
    (hu : ∀ c ∈ u, p c = true) (hne : u ≠ []) (hx : p x = false) :
    tw1 p (u ++ x :: v) = some (u, x :: v) := by
  unfold tw1
  rw [takeWhile_append_all u x v hu hx, dropWhile_append_all u x v hu hx]
  simp [hne]

theorem tw1_none_head {p : Char → Bool} {c : Char} {s : Chars}
    (h : p c = false) : tw1 p (c :: s) = none := by
  unfold tw1
  simp [List.takeWhile_cons, h]

theorem searchM_of_match {A : Type} {m : Chars → Option A} {s : Chars} {a : A}
    (h : m s = some a) : searchM m s = some (0, a) := by
  match s with
  | [] => simp [searchM, h]
  | c :: t => simp [searchM, h]

theorem searchM_none_of_all {A : Type} {m : Chars → Option A} :
    ∀ s : Chars, (∀ j, m (s.drop j) = none) → searchM m s = none := by
  intro s
  induction s with
  | nil =>
    intro h
    have h0 := h 0
    simp at h0
    simp [searchM, h0]
  | cons c t ih =>
    intro h
    have h0 := h 0
    simp at h0
    have ht : ∀ j, m (t.drop j) = none := fun j => h (j + 1)
    simp [searchM, h0, ih ht]

theorem searchM_append_skip {A : Type} {m : Chars → Option A} :
    ∀ (u v : Chars), (∀ j < u.length, m ((u ++ v).drop j) = none) →
      searchM m (u ++ v) = (searchM m v).map (fun q => (q.1 + u.length, q.2)) := by
  intro u
  induction u with
  | nil =>
    intro v _
    simp only [List.nil_append, List.length_nil]
    cases searchM m v with
    | none => rfl
    | some q => simp
  | cons c u ih =>
    intro v h
    have h0 : m (c :: (u ++ v)) = none := by
      have := h 0 (by simp)
      simpa using this
    have hrest : ∀ j < u.length, m ((u ++ v).drop j) = none := by
      intro j hj
      have := h (j + 1) (by simp; omega)
      simpa using this
    have step : searchM m ((c :: u) ++ v) =
        (searchM m (u ++ v)).map (fun p => (p.1 + 1, p.2)) := by
      simp only [List.cons_append, searchM, List.append_eq, h0]
    rw [step, ih v hrest]
    cases searchM m v with
    | none => rfl
    | some q =>
      simp only [Option.map_some, List.length_cons]
      have : q.1 + u.length + 1 = q.1 + (u.length + 1) := by omega
      simp [this]

theorem searchM_some_inv {A : Type} {m : Chars → Option A} :
    ∀ {s : Chars} {i : Nat} {a : A}, searchM m s = some (i, a) →
      m (s.drop i) = some a := by
  intro s
  induction s with
  | nil =>
    intro i a h
    simp only [searchM] at h
    cases hm : m [] with
    | none => rw [hm] at h; cases h
    | some b =>
      rw [hm] at h
      cases h
      simpa using hm
  | cons c t ih =>
    intro i a h
    simp only [searchM] at h
    cases hm : m (c :: t) with
    | some b =>
      rw [hm] at h
      cases h
      simpa using hm
    | none =>
      rw [hm] at h
      cases hs : searchM m t with
      | none => rw [hs] at h; cases h
      | some q =>
        rw [hs] at h
        cases h
        have := ih hs
        simpa using this

/-! ## Brace-depth lemmas -/

theorem lb_ne_rb : ¬ lbrace = rbrace := by decide

theorem rb_ne_lb : ¬ rbrace = lbrace := by decide

theorem balAux_closed :
    ∀ (mid : Chars) (k : Nat) (suf : Chars),
      1 ≤ k →
      (∀ n, (mid.take n).count rbrace < (mid.take n).count lbrace + k) →
      mid.count rbrace + 1 = mid.count lbrace + k →
      balAux k (mid ++ rbrace :: suf) = some mid := by
  intro mid
  induction mid with
  | nil =>
    intro k suf hk hpref hfin
    have hk1 : k = 1 := by simp at hfin; omega
    subst hk1
    simp [balAux, rb_ne_lb]
  | cons c t ih =>
    intro k suf hk hpref hfin
    by_cases hcl : c = lbrace
    · subst hcl
      have hpref2 : ∀ n, (t.take n).count rbrace < (t.take n).count lbrace + (k + 1) := by
        intro n
        have := hpref (n + 1)
        simp [List.take_succ_cons, List.count_cons, rb_ne_lb] at this
        omega
      have hfin2 : t.count rbrace + 1 = t.count lbrace + (k + 1) := by
        simp [List.count_cons, rb_ne_lb] at hfin
        omega
      simp [balAux, ih (k + 1) suf (by omega) hpref2 hfin2]
    · by_cases hcr : c = rbrace
      · subst hcr
        have hk2 : 2 ≤ k := by
          have := hpref 1
          simp [List.take_succ_cons, List.count_cons, lb_ne_rb] at this
          omega
        have hpref2 : ∀ n, (t.take n).count rbrace < (t.take n).count lbrace + (k - 1) := by
          intro n
          have := hpref (n + 1)
          simp [List.take_succ_cons, List.count_cons, lb_ne_rb] at this
          omega
        have hfin2 : t.count rbrace + 1 = t.count lbrace + (k - 1) := by
          simp [List.count_cons, lb_ne_rb] at hfin
          omega
        simp [balAux, hcl, ih (k - 1) suf (by omega) hpref2 hfin2]
        omega
      · have hpref2 : ∀ n, (t.take n).count rbrace < (t.take n).count lbrace + k := by
          intro n
          have := hpref (n + 1)
          simp [List.take_succ_cons, List.count_cons, hcl, hcr] at this
          omega
        have hfin2 : t.count rbrace + 1 = t.count lbrace + k := by
          simp [List.count_cons, hcl, hcr] at hfin
          omega
        simp [balAux, hcl, hcr, ih k suf hk hpref2 hfin2]

theorem balAux_none :
    ∀ (t : Chars) (k : Nat),
      1 ≤ k →
      (∀ n, (t.take n).count rbrace < (t.take n).count lbrace + k) →
      balAux k t = none := by
  intro t
  induction t with
  | nil => intro k _ _; rfl
  | cons c t ih =>
    intro k hk hpref
    by_cases hcl : c = lbrace
    · subst hcl
      have hpref2 : ∀ n, (t.take n).count rbrace < (t.take n).count lbrace + (k + 1) := by
        intro n
        have := hpref (n + 1)
        simp [List.take_succ_cons, List.count_cons, rb_ne_lb] at this
        omega
      simp [balAux, ih (k + 1) (by omega) hpref2]
    · by_cases hcr : c = rbrace
      · subst hcr
        have hk2 : 2 ≤ k := by
          have := hpref 1
          simp [List.take_succ_cons, List.count_cons, lb_ne_rb] at this
          omega
        have hpref2 : ∀ n, (t.take n).count rbrace < (t.take n).count lbrace + (k - 1) := by
          intro n
          have := hpref (n + 1)
          simp [List.take_succ_cons, List.count_cons, lb_ne_rb] at this
          omega
        simp [balAux, hcl, ih (k - 1) (by omega) hpref2]
        omega
      · have hpref2 : ∀ n, (t.take n).count rbrace < (t.take n).count lbrace + k := by
          intro n
          have := hpref (n + 1)
          simp [List.take_succ_cons, List.count_cons, hcl, hcr] at this
          omega
        simp [balAux, hcl, hcr, ih k hk hpref2]

theorem balanced_take {mid : Chars} (h : BalancedBraces mid) :
    ∀ n, (mid.take n).count rbrace ≤ (mid.take n).count lbrace := by
  intro n
  by_cases hn : n < mid.length
  · exact h.2 n hn
  · rw [List.take_of_length_le (by omega)]
    have := h.1
    omega

theorem balancedAfterBrace_closed {mid : Chars} (h : BalancedBraces mid)
    (suf : Chars) : balancedAfterBrace (mid ++ rbrace :: suf) = mid := by
  unfold balancedAfterBrace
  rw [balAux_closed mid 1 suf (by omega)
    (fun n => by have := balanced_take h n; omega)
    (by have := h.1; omega)]
  rfl

theorem balancedAfterBrace_never {t : Chars} (h : NeverClosed t) :
    balancedAfterBrace t = [] := by
  unfold balancedAfterBrace
  have hall : ∀ n, (t.take n).count rbrace < (t.take n).count lbrace + 1 := by
    intro n
    by_cases hn : n ≤ t.length
    · have := h n hn
      omega
    · rw [List.take_of_length_le (by omega)]
      have := h t.length (by omega)
      rw [List.take_length] at this
      omega
  rw [balAux_none t 1 (by omega) hall]
  rfl

/-! ## Small matcher facts -/

theorem matchBlockHeadAt_nil (kw : Chars) : matchBlockHeadAt kw [] = none := by
  cases kw with
  | nil => rfl
  | cons k kr => rfl

/-! ## Claim C4 -/

/-- C4: block extraction returns exactly the substring strictly between the
opening brace and the closing brace at which the depth returns to zero, for
arbitrary nesting; in particular a `config { ... }` sub-block nested inside
a platform entry does not terminate the platform entry early (the `active`
property placed after the sub-block is still extracted). -/
theorem c4_balanced_extraction :
    (∀ (pre mid suf : Chars), BalancedBraces mid →
        extract_balanced_content (pre ++ lbrace :: mid ++ rbrace :: suf)
          pre.length = mid) ∧
    (∀ (pre kw ws mid suf : Chars),
        (∀ j < pre.length,
          matchBlockHeadAt kw ((pre ++ kw ++ ws ++ lbrace :: mid ++ rbrace :: suf).drop j) = none) →
        (∀ c ∈ ws, isSpaceCh c = true) →
        BalancedBraces mid →
        extract_balanced_block (pre ++ kw ++ ws ++ lbrace :: mid ++ rbrace :: suf) kw =
          some mid) ∧
    (extract_sources
        "sources \x7b patreon \x22u\x22 \x7b config \x7b \x22a\x22 \x22b\x22 \x7d active true \x7d \x7d".data =
      [{ platform := "patreon".data, username := "u".data, type := none,
         active := some true, config := [("a".data, "b".data)], url := none }]) := by
  refine ⟨?_, ?_, by decide⟩
  · intro pre mid suf h
    simp [extract_balanced_content, List.drop_left]
    exact balancedAfterBrace_closed h suf
  · intro pre kw ws mid suf hpre hws h
    unfold extract_balanced_block
    have hassoc : pre ++ kw ++ ws ++ lbrace :: mid ++ rbrace :: suf =
        pre ++ (kw ++ (ws ++ lbrace :: (mid ++ rbrace :: suf))) := by
      simp
    rw [hassoc] at hpre ⊢
    rw [searchM_append_skip pre (kw ++ (ws ++ lbrace :: (mid ++ rbrace :: suf))) hpre]
    have hmatch : matchBlockHeadAt kw (kw ++ (ws ++ lbrace :: (mid ++ rbrace :: suf))) =
        some (mid ++ rbrace :: suf) := by
      unfold matchBlockHeadAt
      rw [litP_self]
      have hq : ws0 (ws ++ lbrace :: (mid ++ rbrace :: suf)) =
          lbrace :: (mid ++ rbrace :: suf) := by
        unfold ws0
        exact dropWhile_append_all ws lbrace _ hws rfl
      simp [hq, litP]
    rw [searchM_of_match hmatch]
    simp [balancedAfterBrace_closed h suf]

/-- Witness for C4 at a concrete nested input. -/
theorem c4_balanced_extraction_witness :
    BalancedBraces "a \x7b b \x7d c".data ∧
    extract_balanced_content
      ("xy ".data ++ lbrace :: "a \x7b b \x7d c".data ++ rbrace :: " tail".data)
      ("xy ".data).length = "a \x7b b \x7d c".data :=
  ⟨by decide,
   c4_balanced_extraction.1 "xy ".data "a \x7b b \x7d c".data " tail".data (by decide)⟩

/-! ## Claim C5 -/

/-- C5: when the block keyword is nowhere followed by an opening brace, block
extraction is absent; when the braces after the opening brace never return
to depth zero, the extracted content is empty (no partial content); and a
document whose `beneficiaries` block is unterminated still parses
successfully with an empty beneficiary list. -/
theorem c5_missing_or_unterminated :
    (∀ (text kw : Chars),
        (∀ j ≤ text.length, matchBlockHeadAt kw (text.drop j) = none) →
        extract_balanced_block text kw = none) ∧
    (∀ (pre t : Chars), NeverClosed t →
        extract_balanced_content (pre ++ lbrace :: t) pre.length = []) ∧
    ((parse_text "funding \x22p\x22 \x7b beneficiaries \x7b beneficiary \x22x\x22 \x7b ").toOption.map
        (fun c => (c.project_name, c.beneficiaries, c.funding_sources, c.tiers, c.goals)) =
      some ("p".data, [], [], [], [])) := by
  refine ⟨?_, ?_, ?_⟩
  · intro text kw h
    unfold extract_balanced_block
    rw [searchM_none_of_all]
    · rfl
    · intro j
      by_cases hj : j ≤ text.length
      · exact h j hj
      · rw [List.drop_eq_nil_of_le (by omega)]
        exact matchBlockHeadAt_nil kw
  · intro pre t h
    simp [extract_balanced_content, List.drop_left]
    exact balancedAfterBrace_never h
  · decide

/-- Witness for C5 at concrete inputs. -/
theorem c5_missing_or_unterminated_witness :
    ((∀ j ≤ ("no blocks here".data).length,
        matchBlockHeadAt "beneficiaries".data ("no blocks here".data.drop j) = none) ∧
      extract_balanced_block "no blocks here".data "beneficiaries".data = none) ∧
    (NeverClosed "x \x7b y".data ∧
      extract_balanced_content ("ab".data ++ lbrace :: "x \x7b y".data) ("ab".data).length = []) :=
  ⟨⟨by decide,
    c5_missing_or_unterminated.1 "no blocks here".data "beneficiaries".data (by decide)⟩,
   ⟨by decide,
    c5_missing_or_unterminated.2.1 "ab".data "x \x7b y".data (by decide)⟩⟩

/-! ## Claim C8 -/

/-- C8: `progress_percentage` is `min(current/target * 100, 100)` and `0`
for a zero target; the 125-of-200 goal yields 62.5 and the zero-target goal
yields 0 with no division error. -/
theorem c8_progress_percentage :
    (∀ g : FundingGoal, g.target_amount.value = 0 → g.progress_percentage = 0) ∧
    (∀ g : FundingGoal, g.target_amount.value ≠ 0 →
        g.progress_percentage =
          min (g.current_amount.value / g.target_amount.value * 100) 100) ∧
    FundingGoal.progress_percentage
      { name := "G".data, target_amount := { value := 200 },
        current_amount := { value := 125 } } = 125 / 2 ∧
    FundingGoal.progress_percentage
      { name := "G".data, target_amount := { value := 0 },
        current_amount := { value := 125 } } = 0 := by
  refine ⟨?_, ?_, ?_, ?_⟩
  · intro g h
    simp [FundingGoal.progress_percentage, h]
  · intro g h
    simp [FundingGoal.progress_percentage, h]
  · norm_num [FundingGoal.progress_percentage, min_def]
  · norm_num [FundingGoal.progress_percentage]

/-- Witness for C8 at the concrete goals of the claim. -/
theorem c8_progress_percentage_witness :
    ((200 : Rat) ≠ 0 ∧
      FundingGoal.progress_percentage
        { name := "G".data, target_amount := { value := 200 },
          current_amount := { value := 125 } } =
        min ((125 : Rat) / 200 * 100) 100) ∧
    ((0 : Rat) = 0 ∧
      FundingGoal.progress_percentage
        { name := "G".data, target_amount := { value := 0 },
          current_amount := { value := 125 } } = 0) :=
  ⟨⟨by decide,
    c8_progress_percentage.2.1
      { name := "G".data, target_amount := { value := 200 },
        current_amount := { value := 125 } } (by decide)⟩,
   ⟨rfl,
    c8_progress_percentage.1
      { name := "G".data, target_amount := { value := 0 },
        current_amount := { value := 125 } } rfl⟩⟩

/-! ## Claim C1 -/

/-- C1: the half of the claim about `funding_type` holds (an omitted `type`
yields `both`), but the half about `active` does not: the `'active'` key is
always present in the extracted source dictionary (set to `None` when the
property is omitted), so `source_data.get('active', True)` returns `None`
and the built `FundingSource.is_active` is Python `None` (modelled `none`),
not `True`. -/
theorem c1_active_default_is_none :
    (parse_text
        "funding \x22p\x22 \x7b sources \x7b github_sponsors \x22alice\x22 \x7b \x7d \x7d \x7d").toOption.map
        (fun c => c.funding_sources) =
      some [{ platform := .github_sponsors, username := "alice".data,
              funding_type := .both, is_active := none, custom_url := none,
              platform_specific_config := [] }] := by
  decide

/-! ## Claim C2 (counterexample) -/

/-- C2 fails as stated: in this input the top-level `funding "p" {` block is
located, yet the parse raises, because `float('1.2.3')` raises inside the
located block. -/
theorem c2_counterexample :
    (parse_text "funding \x22p\x22 \x7b min_amount 1.2.3 \x7d").isOk = false ∧
    (searchM matchFundingAt
        (stripComments "funding \x22p\x22 \x7b min_amount 1.2.3 \x7d".data)).isSome = true := by
  decide

/-! ## Claim C3 (counterexample) -/

/-- C3 fails as stated: the `patreon "a"` block precedes the
`github_sponsors "b"` block in the source text (the first conjunct shows
the text is literally the patreon block followed by the github block), yet
the built configuration lists the github source first, because
`_extract_sources` iterates over the fixed platform-keyword list. -/
theorem c3_counterexample :
    ("funding \x22p\x22 \x7b sources \x7b patreon \x22a\x22 \x7b \x7d github_sponsors \x22b\x22 \x7b \x7d \x7d \x7d" =
      "funding \x22p\x22 \x7b sources \x7b " ++ "patreon \x22a\x22 \x7b \x7d " ++
        "github_sponsors \x22b\x22 \x7b \x7d \x7d \x7d") ∧
    ((parse_text
        "funding \x22p\x22 \x7b sources \x7b patreon \x22a\x22 \x7b \x7d github_sponsors \x22b\x22 \x7b \x7d \x7d \x7d").toOption.map
        (fun c => c.funding_sources.map (fun s => (s.platform, s.username))) =
      some [(.github_sponsors, "b".data), (.patreon, "a".data)]) := by
  constructor
  · rfl
  · decide

/-! ## Validator counting lemmas -/

theorem dropWhile_first_not {p : Char → Bool} :
    ∀ (u : Chars) (c : Char) (r : Chars), u.dropWhile p = c :: r → p c = false := by
  intro u
  induction u with
  | nil => intro c r h; simp at h
  | cons d u ih =>
    intro c r h
    rw [List.dropWhile_cons] at h
    split at h
    · exact ih c r h
    · rename_i hd
      cases h
      simpa using hd

theorem count_flatten_zero {a : Chars} :
    ∀ L : List (List Chars), (∀ x ∈ L, x.count a = 0) → L.flatten.count a = 0 := by
  intro L
  induction L with
  | nil => intro _; rfl
  | cons x L ih =>
    intro h
    rw [List.flatten_cons, List.count_append, h x (by simp), ih (fun y hy => h y (by simp [hy]))]

theorem countP_flatten_map {p : Chars → Bool} {f : FundingSource → List Chars} :
    ∀ l : List FundingSource,
      ((l.map f).flatten.countP p) = (l.map (fun s => (f s).countP p)).sum := by
  intro l
  induction l with
  | nil => rfl
  | cons s l ih =>
    simp [List.countP_append, ih]

theorem isTideliftMsg_username (pl : FundingPlatform) :
    isTideliftMsg (msg_username_for pl) = false := by
  cases pl <;> decide

theorem dedup_length_iff {l : List Chars} : l.dedup.length = l.length ↔ l.Nodup := by
  constructor
  · intro h
    have := (List.dedup_sublist l).eq_of_length h
    rw [← this]
    exact List.nodup_dedup l
  · intro h
    rw [List.dedup_eq_self.2 h]

theorem countP_tidelift_sourceErrors (s : FundingSource) :
    (sourceErrors s).countP isTideliftMsg =
      if s.platform = .tidelift ∧ ¬ tideliftOk s.username then 1 else 0 := by
  unfold sourceErrors
  rw [List.countP_append, List.countP_append, List.countP_append]
  have h1 : (if s.username = [] then [msg_username_for s.platform] else []).countP isTideliftMsg = 0 := by
    split
    · simp [List.countP_cons, isTideliftMsg_username]
    · rfl
  have h2 : (if s.platform = .custom ∧ s.custom_url.getD [] = [] then [msg_custom_url] else []).countP isTideliftMsg = 0 := by
    split
    · decide
    · rfl
  have h4 : (if s.platform = .thanks_dev ∧ s.username.take 5 ≠ "u/gh/".data then [msg_thanks_dev] else []).countP isTideliftMsg = 0 := by
    split
    · decide
    · rfl
  rw [h1, h2, h4]
  by_cases hp : s.platform = .tidelift
  · by_cases hs : '/' ∈ s.username
    · by_cases hr : s.username.takeWhile (fun c => !(c = '/')) ∈ validRegistries
      · have hok : tideliftOk s.username := ⟨hs, hr⟩
        simp [hp, hs, hr, hok]
      · have hok : ¬ tideliftOk s.username := fun h => hr h.2
        simp [hp, hs, hr, hok]
        decide
    · have hok : ¬ tideliftOk s.username := fun h => hs h.1
      simp [hp, hs, hok]
      decide
  · have hp2 : (if s.platform = FundingPlatform.tidelift then
        (if '/' ∈ s.username then
          (if s.username.takeWhile (fun c => !(c = '/')) ∈ validRegistries then []
           else [msg_tidelift_registry])
         else [msg_tidelift_format])
       else []) = [] := by simp [hp]
    simp [hp2, hp]

theorem registries_no_slash :
    ∀ reg ∈ validRegistries, ∀ c ∈ reg, (!(c = '/')) = true := by
  decide

theorem tideliftOk_iff_spec (u : Chars) : tideliftOk u ↔ SpecTideliftForm u := by
  constructor
  · rintro ⟨hs, hr⟩
    have hsplit := List.takeWhile_append_dropWhile (p := fun c => !(c = '/')) (l := u)
    cases hd : u.dropWhile (fun c => !(c = '/')) with
    | nil =>
      exfalso
      have hall := List.dropWhile_eq_nil_iff.mp hd '/' hs
      simp at hall
    | cons c r =>
      have hc : (!(c = '/')) = false := dropWhile_first_not u c r hd
      simp at hc
      subst hc
      refine ⟨u.takeWhile (fun c => !(c = '/')), r, hr, ?_⟩
      conv_lhs => rw [← hsplit, hd]
  · rintro ⟨reg, pkg, hreg, rfl⟩
    have hregp : ∀ c ∈ reg, (!(c = '/')) = true := registries_no_slash reg hreg
    constructor
    · simp
    · rw [takeWhile_append_all reg '/' pkg hregp (by simp)]
      exact hreg

/-! ## Claim C6 -/

/-- C6: the number of tidelift-rule violations emitted by the validator is
exactly the number of tidelift funding sources whose username fails the
registry check, and that check holds exactly for usernames of the form
`<registry>/<package>` with the registry in the closed set; in particular a
single tidelift source `"otherregistry/pkg"` yields exactly one such
violation and `"npm/pkg"` yields none. -/
theorem c6_tidelift_validation :
    (∀ c : FundingConfiguration,
        (validate_configuration c).countP isTideliftMsg =
          (c.funding_sources.map (fun s =>
            if s.platform = .tidelift ∧ ¬ tideliftOk s.username then 1 else 0)).sum) ∧
    (∀ u : Chars, tideliftOk u ↔ SpecTideliftForm u) ∧
    ((validate_configuration
        { project_name := "p".data,
          beneficiaries := [{ name := "x".data }],
          funding_sources := [{ platform := .tidelift,
                                username := "otherregistry/pkg".data }] }).countP
        isTideliftMsg = 1) ∧
    ((validate_configuration
        { project_name := "p".data,
          beneficiaries := [{ name := "x".data }],
          funding_sources := [{ platform := .tidelift,
                                username := "npm/pkg".data }] }).countP
        isTideliftMsg = 0) := by
  refine ⟨?_, tideliftOk_iff_spec, by decide, by decide⟩
  intro c
  unfold validate_configuration
  rw [List.countP_append, List.countP_append, List.countP_append,
    List.countP_append, List.countP_append]
  have h1 : (if c.project_name = [] then [msg_project] else []).countP isTideliftMsg = 0 := by
    split
    · decide
    · rfl
  have h2 : (if c.beneficiaries = [] then [msg_beneficiary] else []).countP isTideliftMsg = 0 := by
    split
    · decide
    · rfl
  have h3 : (if c.funding_sources = [] then [msg_source] else []).countP isTideliftMsg = 0 := by
    split
    · decide
    · rfl
  have h5 : (if (c.tiers.map (fun t => t.name)).dedup.length ≠ (c.tiers.map (fun t => t.name)).length then [msg_tier_unique] else []).countP isTideliftMsg = 0 := by
    split
    · decide
    · rfl
  have h6 : (if (c.goals.map (fun g => g.name)).dedup.length ≠ (c.goals.map (fun g => g.name)).length then [msg_goal_unique] else []).countP isTideliftMsg = 0 := by
    split
    · decide
    · rfl
  rw [h1, h2, h3, h5, h6, countP_flatten_map]
  simp [countP_tidelift_sourceErrors]

/-! ## Claim C7 -/

theorem count_tier_sourceErrors (s : FundingSource) :
    (sourceErrors s).count msg_tier_unique = 0 := by
  unfold sourceErrors
  rw [List.count_append, List.count_append, List.count_append]
  have h1 : (if s.username = [] then [msg_username_for s.platform] else []).count msg_tier_unique = 0 := by
    split
    · cases hp : s.platform <;> decide
    · rfl
  have h2 : (if s.platform = .custom ∧ s.custom_url.getD [] = [] then [msg_custom_url] else []).count msg_tier_unique = 0 := by
    split
    · decide
    · rfl
  have h3 : (if s.platform = FundingPlatform.tidelift then
      (if '/' ∈ s.username then
        (if s.username.takeWhile (fun c => !(c = '/')) ∈ validRegistries then []
         else [msg_tidelift_registry])
       else [msg_tidelift_format])
     else []).count msg_tier_unique = 0 := by
    split
    · split
      · split
        · rfl
        · decide
      · decide
    · rfl
  have h4 : (if s.platform = .thanks_dev ∧ s.username.take 5 ≠ "u/gh/".data then [msg_thanks_dev] else []).count msg_tier_unique = 0 := by
    split
    · decide
    · rfl
  rw [h1, h2, h3, h4]

theorem count_goal_sourceErrors (s : FundingSource) :
    (sourceErrors s).count msg_goal_unique = 0 := by
  unfold sourceErrors
  rw [List.count_append, List.count_append, List.count_append]
  have h1 : (if s.username = [] then [msg_username_for s.platform] else []).count msg_goal_unique = 0 := by
    split
    · cases hp : s.platform <;> decide
    · rfl
  have h2 : (if s.platform = .custom ∧ s.custom_url.getD [] = [] then [msg_custom_url] else []).count msg_goal_unique = 0 := by
    split
    · decide
    · rfl
  have h3 : (if s.platform = FundingPlatform.tidelift then
      (if '/' ∈ s.username then
        (if s.username.takeWhile (fun c => !(c = '/')) ∈ validRegistries then []
         else [msg_tidelift_registry])
       else [msg_tidelift_format])
     else []).count msg_goal_unique = 0 := by
    split
    · split
      · split
        · rfl
        · decide
      · decide
    · rfl
  have h4 : (if s.platform = .thanks_dev ∧ s.username.take 5 ≠ "u/gh/".data then [msg_thanks_dev] else []).count msg_goal_unique = 0 := by
    split
    · decide
    · rfl
  rw [h1, h2, h3, h4]

theorem count_unique_segment (names : List Chars) (msg : Chars) :
    (if names.dedup.length ≠ names.length then [msg] else []).count msg =
      if names.Nodup then 0 else 1 := by
  by_cases hnd : names.Nodup
  · rw [if_neg (by simp [dedup_length_iff.mpr hnd]), if_pos hnd]
    rfl
  · rw [if_pos (fun h => hnd (dedup_length_iff.mp h)), if_neg hnd]
    simp

/-- C7: the validator emits exactly one tier-uniqueness violation when some
tier name repeats and none when tier names are distinct; independently the
same holds for goal names; and all rule violations are collected into one
list (a configuration violating several rules at once reports them all, in
order). -/
theorem c7_unique_name_violations :
    (∀ c : FundingConfiguration,
      ((validate_configuration c).count msg_tier_unique =
        if (c.tiers.map (fun t => t.name)).Nodup then 0 else 1) ∧
      ((validate_configuration c).count msg_goal_unique =
        if (c.goals.map (fun g => g.name)).Nodup then 0 else 1)) ∧
    (validate_configuration
      { project_name := "p".data,
        beneficiaries := [],
        funding_sources := [],
        tiers := [{ name := "Basic".data, amount := { value := 5 } },
                  { name := "Basic".data, amount := { value := 10 } }],
        goals := [{ name := "G".data, target_amount := { value := 1 } },
                  { name := "G".data, target_amount := { value := 2 } }] } =
      [msg_beneficiary, msg_source, msg_tier_unique, msg_goal_unique]) := by
  constructor
  · intro c
    have base : ∀ m : Chars, m ≠ msg_project → m ≠ msg_beneficiary → m ≠ msg_source →
        (validate_configuration c).count m =
          ((c.funding_sources.map sourceErrors).flatten.count m) +
          ((if (c.tiers.map (fun t => t.name)).dedup.length ≠ (c.tiers.map (fun t => t.name)).length then [msg_tier_unique] else []).count m) +
          ((if (c.goals.map (fun g => g.name)).dedup.length ≠ (c.goals.map (fun g => g.name)).length then [msg_goal_unique] else []).count m) := by
      intro m hm1 hm2 hm3
      unfold validate_configuration
      rw [List.count_append, List.count_append, List.count_append,
        List.count_append, List.count_append]
      have z1 : (if c.project_name = [] then [msg_project] else []).count m = 0 := by
        split
        · simp [List.count_cons, hm1]
        · rfl
      have z2 : (if c.beneficiaries = [] then [msg_beneficiary] else []).count m = 0 := by
        split
        · simp [List.count_cons, hm2]
        · rfl
      have z3 : (if c.funding_sources = [] then [msg_source] else []).count m = 0 := by
        split
        · simp [List.count_cons, hm3]
        · rfl
      rw [z1, z2, z3]
      omega
    constructor
    · rw [base msg_tier_unique (by decide) (by decide) (by decide)]
      rw [count_flatten_zero _ (by
        intro x hx
        rcases List.mem_map.mp hx with ⟨s, _, rfl⟩
        exact count_tier_sourceErrors s)]
      have hgz : (if (c.goals.map (fun g => g.name)).dedup.length ≠ (c.goals.map (fun g => g.name)).length then [msg_goal_unique] else []).count msg_tier_unique = 0 := by
        split
        · decide
        · rfl
      rw [hgz, count_unique_segment]
      simp
    · rw [base msg_goal_unique (by decide) (by decide) (by decide)]
      rw [count_flatten_zero _ (by
        intro x hx
        rcases List.mem_map.mp hx with ⟨s, _, rfl⟩
        exact count_goal_sourceErrors s)]
      have htz : (if (c.tiers.map (fun t => t.name)).dedup.length ≠ (c.tiers.map (fun t => t.name)).length then [msg_tier_unique] else []).count msg_goal_unique = 0 := by
        split
        · decide
        · rfl
      rw [htz, count_unique_segment]
      simp
  · decide

/-! ## Claim C9 -/

theorem splitOnCh_ne_nil {sep : Char} : ∀ s : Chars, splitOnCh sep s ≠ [] := by
  intro s
  cases s with
  | nil => simp [splitOnCh]
  | cons c t =>
    unfold splitOnCh
    split
    · simp
    · split
      · simp
      · simp

theorem splitOnCh_one {sep : Char} :
    ∀ (s a : Chars), splitOnCh sep s = [a] → s = a := by
  intro s
  induction s with
  | nil =>
    intro a h
    simp [splitOnCh] at h
    simp [h]
  | cons c t ih =>
    intro a h
    unfold splitOnCh at h
    split at h
    · injection h with h1 h2
      exact absurd h2 (splitOnCh_ne_nil t)
    · rename_i hc
      split at h
      · rename_i parts hd r hsplit
        injection h with h1 h2
        subst h2
        subst h1
        rw [ih _ hsplit]
      · rename_i hsplit
        exact absurd hsplit (splitOnCh_ne_nil t)

theorem splitOnCh_two {sep : Char} :
    ∀ (s a b : Chars), splitOnCh sep s = [a, b] → s = a ++ sep :: b := by
  intro s
  induction s with
  | nil => intro a b h; simp [splitOnCh] at h
  | cons c t ih =>
    intro a b h
    unfold splitOnCh at h
    split at h
    · rename_i hc
      subst hc
      injection h with h1 h2
      subst h1
      simp [← splitOnCh_one t b h2]
    · rename_i hc
      split at h
      · rename_i parts hd r hsplit
        injection h with h1 h2
        subst h1
        simp [ih _ _ (by rw [hsplit, h2])]
      · rename_i hsplit
        exact absurd hsplit (splitOnCh_ne_nil t)

theorem splitOnCh_three {sep : Char} :
    ∀ (s a b c : Chars), splitOnCh sep s = [a, b, c] →
      s = a ++ sep :: b ++ sep :: c := by
  intro s
  induction s with
  | nil => intro a b c h; simp [splitOnCh] at h
  | cons d t ih =>
    intro a b c h
    unfold splitOnCh at h
    split at h
    · rename_i hd
      subst hd
      injection h with h1 h2
      subst h1
      simp [splitOnCh_two t b c h2]
    · rename_i hd
      split at h
      · rename_i parts hh r hsplit
        injection h with h1 h2
        subst h1
        simp [ih _ _ _ (by rw [hsplit, h2])]
      · rename_i hsplit
        exact absurd hsplit (splitOnCh_ne_nil t)

theorem parseDateYMD_some_form {s : Chars} {d : Nat × Nat × Nat}
    (h : parseDateYMD s = some d) : SpecYMDForm s := by
  unfold parseDateYMD at h
  split at h
  · rename_i ys ms ds hsplit
    split at h
    · rename_i hguard
      split at h
      · rename_i hrange
        simp only [Bool.and_eq_true, decide_eq_true_eq, List.all_eq_true] at hguard hrange
        obtain ⟨⟨⟨⟨⟨⟨⟨g1, g2⟩, g3⟩, g4⟩, g5⟩, g6⟩, g7⟩, g8⟩ := hguard
        obtain ⟨⟨⟨⟨r1, r2⟩, r3⟩, r4⟩, r5⟩ := hrange
        exact ⟨ys, ms, ds, splitOnCh_three s ys ms ds hsplit,
          g1, g2, g3, g4, g5, g6, g7, g8, r1, r2, r3, r4, r5⟩
      · cases h
    · cases h
  · cases h

/-- C9: a deadline string not of `YYYY-MM-DD` form never parses to a date,
the goal builder drops such a deadline to an absent value rather than
raising, and a goal block with `deadline "not-a-date"` parses end-to-end
into a goal with no deadline. -/
theorem c9_malformed_deadline :
    (∀ s : Chars, ¬ SpecYMDForm s → parseDateYMD s = none) ∧
    (∀ (gd : GoalData) (s : Chars), gd.deadline = some s → ¬ SpecYMDForm s →
        (buildGoal gd).deadline = none) ∧
    ((parse_text
        "funding \x22p\x22 \x7b goals \x7b goal \x22G\x22 \x7b target 100 USD deadline \x22not-a-date\x22 \x7d \x7d \x7d").toOption.map
        (fun c => c.goals.map (fun g => (g.name, g.deadline))) =
      some [("G".data, none)]) := by
  refine ⟨?_, ?_, by decide⟩
  · intro s hform
    cases h : parseDateYMD s with
    | none => rfl
    | some d => exact absurd (parseDateYMD_some_form h) hform
  · intro gd s hdl hform
    unfold buildGoal
    simp only [hdl]
    split
    · rfl
    · cases hp : parseDateYMD s with
      | none => rfl
      | some d => exact absurd (parseDateYMD_some_form hp) hform

/-- Witness for C9 at the deadline string of the claim. -/
theorem c9_malformed_deadline_witness :
    ¬ SpecYMDForm "not-a-date".data ∧ parseDateYMD "not-a-date".data = none := by
  have hform : ¬ SpecYMDForm "not-a-date".data := by
    rintro ⟨ys, ms, ds, heq, h4, hdig, _⟩
    cases ys with
    | nil => simp at h4
    | cons y yr =>
      rw [List.cons_append] at heq
      have hy : y = 'n' := by
        have := congrArg (fun l => l.head?) heq
        simpa using this.symm
      have := hdig y (by simp)
      rw [hy] at this
      simp at this
  exact ⟨hform, c9_malformed_deadline.1 "not-a-date".data hform⟩

/-! ## Structural form of the model builder -/

theorem foldl_add_beneficiary (l : List BenData) :
    ∀ c : FundingConfiguration,
      l.foldl (fun c b => c.add_beneficiary (buildBen b)) c =
        { c with beneficiaries := c.beneficiaries ++ l.map buildBen } := by
  induction l with
  | nil => intro c; simp
  | cons b l ih =>
    intro c
    rw [List.foldl_cons, ih]
    simp [FundingConfiguration.add_beneficiary]

theorem foldl_add_funding_source (l : List SourceData) :
    ∀ c : FundingConfiguration,
      l.foldl (fun c s => c.add_funding_source (buildSource s)) c =
        { c with funding_sources := c.funding_sources ++ l.map buildSource } := by
  induction l with
  | nil => intro c; simp
  | cons s l ih =>
    intro c
    rw [List.foldl_cons, ih]
    simp [FundingConfiguration.add_funding_source]

theorem except_map_bind_ok {α β γ : Type} (f : α → β) (x : α) (g : β → Except Chars γ) :
    ((Except.ok x : Except Chars α).map f >>= g) = g (f x) := rfl

theorem foldlM_buildTier_cons (t : TierData) (l : List TierData) (c : FundingConfiguration) :
    (t :: l).foldlM (fun c t => (buildTier t).map c.add_tier) c =
      (buildTier t).map c.add_tier >>= fun c2 =>
        l.foldlM (fun c t => (buildTier t).map c.add_tier) c2 := rfl

theorem foldlM_add_tier (l : List TierData) :
    ∀ c : FundingConfiguration,
      l.foldlM (fun c t => (buildTier t).map c.add_tier) c =
        (l.mapM buildTier).map (fun fts => { c with tiers := c.tiers ++ fts }) := by
  induction l with
  | nil =>
    intro c
    rw [show (([] : List TierData).mapM buildTier) = Except.ok [] from rfl]
    simp [Except.map, pure, Except.pure]
  | cons t l ih =>
    intro c
    rw [foldlM_buildTier_cons, List.mapM_cons]
    cases ht : buildTier t with
    | error e =>
      rfl
    | ok ft =>
      rw [except_map_bind_ok]
      rw [ih (c.add_tier ft)]
      cases hl : l.mapM buildTier with
      | error e => rfl
      | ok fts =>
        simp [Except.map, Bind.bind, Except.bind, pure, Except.pure,
          FundingConfiguration.add_tier, List.append_assoc]

theorem foldl_add_goal (l : List GoalData) :
    ∀ c : FundingConfiguration,
      l.foldl (fun c g => c.add_goal (buildGoal g)) c =
        { c with goals := c.goals ++ l.map buildGoal } := by
  induction l with
  | nil => intro c; simp
  | cons g l ih =>
    intro c
    rw [List.foldl_cons, ih]
    simp [FundingConfiguration.add_goal]

/-- The builder in closed form: the `add_*` loops append the translated
entities of each extracted dictionary, in extraction order, and the whole
build succeeds exactly when every tier translates without overflow. -/
theorem build_configuration_eq (cd : ConfigData) :
    build_configuration cd =
      (cd.tiers.mapM buildTier).map (fun fts =>
        { project_name := cd.project_name,
          description := cd.description,
          preferred_currency := prefCurrencyOf cd,
          min_amount := limitAmount cd.min_amount (prefCurrencyOf cd),
          max_amount := limitAmount cd.max_amount (prefCurrencyOf cd),
          beneficiaries := cd.beneficiaries.map buildBen,
          funding_sources := cd.sources.map buildSource,
          tiers := fts,
          goals := cd.goals.map buildGoal }) := by
  simp only [build_configuration]
  rw [foldl_add_beneficiary, foldl_add_funding_source, foldlM_add_tier]
  cases hl : cd.tiers.mapM buildTier with
  | error e => simp [Except.map, Bind.bind, Except.bind]
  | ok fts =>
    simp only [Except.map, Bind.bind, Except.bind, pure, Except.pure, Except.ok.injEq]
    rw [foldl_add_goal]
    simp

/-! ## Inversion of a successful parse -/

theorem simple_parse_ok_inv {input : Chars} {cd : ConfigData}
    (h : simple_parse input = .ok cd) :
    extract_number_property (stripComments input) "min_amount".data = .ok cd.min_amount ∧
    extract_number_property (stripComments input) "max_amount".data = .ok cd.max_amount ∧
    cd.currency = extract_keyword_property (stripComments input) "currency".data ∧
    cd.beneficiaries = extract_beneficiaries (stripComments input) ∧
    cd.sources = extract_sources (stripComments input) ∧
    extract_tiers (stripComments input) = .ok cd.tiers ∧
    extract_goals (stripComments input) = .ok cd.goals := by
  simp only [simple_parse] at h
  cases hsearch : searchM matchFundingAt (stripComments input) with
  | none => rw [hsearch] at h; cases h
  | some p =>
    obtain ⟨i, pname⟩ := p
    rw [hsearch] at h
    cases hmin : extract_number_property (stripComments input) "min_amount".data with
    | error e => rw [hmin] at h; cases h
    | ok minA =>
      rw [hmin] at h
      cases hmax : extract_number_property (stripComments input) "max_amount".data with
      | error e => rw [hmax] at h; cases h
      | ok maxA =>
        rw [hmax] at h
        cases htier : extract_tiers (stripComments input) with
        | error e => rw [htier] at h; cases h
        | ok tiers =>
          rw [htier] at h
          cases hgoal : extract_goals (stripComments input) with
          | error e => rw [hgoal] at h; cases h
          | ok goals =>
            rw [hgoal] at h
            simp only [Except.bind, bind, pure, Except.pure, Except.ok.injEq] at h
            subst h
            exact ⟨rfl, rfl, rfl, rfl, rfl, rfl, rfl⟩

theorem parse_text_ok_inv {s : String} {c : FundingConfiguration}
    (h : parse_text s = .ok c) :
    ∃ cd, simple_parse s.data = .ok cd ∧ build_configuration cd = .ok c := by
  unfold parse_text at h
  split at h
  · rename_i cd hsp
    split at h
    · rename_i c2 hbc
      cases h
      exact ⟨cd, hsp, hbc⟩
    · cases h
  · cases h

/-! ## Claim C10 -/

/-- C10: the builder sets `min_amount`/`max_amount` only when the extracted
number is truthy: a parsed configuration whose `min_amount` (resp.
`max_amount`) token converted to `0` has the field absent rather than a
zero amount, and a non-zero value becomes a `FundingAmount` in the
configuration's preferred currency. -/
theorem c10_zero_amount_dropped :
    ∀ (s : String) (c : FundingConfiguration), parse_text s = .ok c →
      (∀ tok v, extract_number_token (stripComments s.data) "min_amount".data = some tok →
        parseFloatToken tok = some v →
        (v = 0 → c.min_amount = none) ∧
        (v ≠ 0 → c.min_amount = some { value := v, currency := c.preferred_currency })) ∧
      (∀ tok v, extract_number_token (stripComments s.data) "max_amount".data = some tok →
        parseFloatToken tok = some v →
        (v = 0 → c.max_amount = none) ∧
        (v ≠ 0 → c.max_amount = some { value := v, currency := c.preferred_currency })) := by
  intro s c h
  obtain ⟨cd, hsp, hb⟩ := parse_text_ok_inv h
  obtain ⟨hmin, hmax, -, -, -, -, -⟩ := simple_parse_ok_inv hsp
  rw [build_configuration_eq] at hb
  cases hmm : cd.tiers.mapM buildTier with
  | error e => rw [hmm] at hb; cases hb
  | ok fts =>
    rw [hmm] at hb
    simp only [Except.map, Except.ok.injEq] at hb
    subst hb
    constructor
    · intro tok v htok hv
      unfold extract_number_property at hmin
      rw [htok] at hmin
      simp only [hv, Except.ok.injEq] at hmin
      constructor
      · intro h0
        simp [limitAmount, ← hmin, h0]
      · intro h0
        simp [limitAmount, ← hmin, h0]
    · intro tok v htok hv
      unfold extract_number_property at hmax
      rw [htok] at hmax
      simp only [hv, Except.ok.injEq] at hmax
      constructor
      · intro h0
        simp [limitAmount, ← hmax, h0]
      · intro h0
        simp [limitAmount, ← hmax, h0]

/-- Witness for C10: `min_amount 0` is dropped while `max_amount 50`
becomes a `FundingAmount` in the preferred currency. -/
theorem c10_zero_amount_dropped_witness :
    parse_text "funding \x22p\x22 \x7b min_amount 0 max_amount 50 \x7d" =
      .ok { project_name := "p".data, description := none, beneficiaries := [],
            funding_sources := [], tiers := [], goals := [],
            preferred_currency := .USD, min_amount := none,
            max_amount := some { value := 50, currency := .USD } } ∧
    extract_number_token
      (stripComments "funding \x22p\x22 \x7b min_amount 0 max_amount 50 \x7d".data)
      "min_amount".data = some "0".data ∧
    parseFloatToken "0".data = some 0 ∧
    ({ project_name := "p".data, description := none, beneficiaries := [],
       funding_sources := [], tiers := [], goals := [],
       preferred_currency := .USD, min_amount := none,
       max_amount := some { value := 50, currency := .USD } } : FundingConfiguration).min_amount = none ∧
    ({ project_name := "p".data, description := none, beneficiaries := [],
       funding_sources := [], tiers := [], goals := [],
       preferred_currency := .USD, min_amount := none,
       max_amount := some { value := 50, currency := .USD } } : FundingConfiguration).max_amount =
      some { value := 50,
             currency := ({ project_name := "p".data, description := none, beneficiaries := [],
                            funding_sources := [], tiers := [], goals := [],
                            preferred_currency := .USD, min_amount := none,
                            max_amount := some { value := 50, currency := .USD } } : FundingConfiguration).preferred_currency } := by
  have h := c10_zero_amount_dropped
    "funding \x22p\x22 \x7b min_amount 0 max_amount 50 \x7d"
    { project_name := "p".data, description := none, beneficiaries := [],
      funding_sources := [], tiers := [], goals := [],
      preferred_currency := .USD, min_amount := none,
      max_amount := some { value := 50, currency := .USD } }
    (by rfl)
  exact ⟨by rfl, by decide, by decide,
    (h.1 "0".data 0 (by decide) (by decide)).1 rfl,
    (h.2 "50".data 50 (by decide) (by decide)).2 (by decide)⟩

/-! ## Claim C2: where the parse can raise -/

theorem except_bind_isOk {α β : Type} (a : Except Chars α) (g : α → Except Chars β) :
    ((a >>= g).isOk = true) ↔ ∃ x, a = .ok x ∧ (g x).isOk = true := by
  cases a with
  | error e =>
    simp [Bind.bind, Except.bind, Except.isOk, Except.toBool]
  | ok x =>
    simp [Bind.bind, Except.bind]

theorem mapM_isOk_iff {α β : Type} (f : α → Except Chars β) :
    ∀ l : List α, ((l.mapM f).isOk = true) ↔ ∀ x ∈ l, (f x).isOk = true := by
  intro l
  induction l with
  | nil =>
    constructor
    · intro _ x hx
      simp at hx
    · intro _
      rfl
  | cons x l ih =>
    rw [List.mapM_cons]
    constructor
    · intro h
      rw [except_bind_isOk] at h
      obtain ⟨y, hy, h⟩ := h
      rw [except_bind_isOk] at h
      obtain ⟨ys, hys, _⟩ := h
      intro z hz
      rcases List.mem_cons.mp hz with hz | hz
      · subst hz
        simp [hy, Except.isOk, Except.toBool]
      · exact ih.mp (by rw [hys]; rfl) z hz
    · intro h
      have hx := h x (by simp)
      cases hfx : f x with
      | error e => rw [hfx] at hx; simp [Except.isOk, Except.toBool] at hx
      | ok y =>
        rw [except_bind_isOk]
        refine ⟨y, rfl, ?_⟩
        have hl : ((l.mapM f).isOk = true) := ih.mpr (fun z hz => h z (by simp [hz]))
        cases hml : l.mapM f with
        | error e => rw [hml] at hl; simp [Except.isOk, Except.toBool] at hl
        | ok ys =>
          rw [except_bind_isOk]
          exact ⟨ys, rfl, by simp [pure, Except.pure, Except.isOk, Except.toBool]⟩

theorem extract_number_property_isOk (text kw : Chars) :
    ((extract_number_property text kw).isOk = true) ↔ ¬ NumPropBad text kw := by
  unfold extract_number_property NumPropBad
  cases htok : extract_number_token text kw with
  | none => simp [Except.isOk, Except.toBool]
  | some tok =>
    cases hv : parseFloatToken tok with
    | none => simp [Except.isOk, Except.toBool, hv]
    | some v => simp [Except.isOk, Except.toBool, hv]

theorem extractAmountWith_isOk (props kw : Chars) :
    ((extractAmountWith props kw).isOk = true) ↔
      ¬ ∃ tok cur, amount_token props kw = some (tok, cur) ∧
          parseFloatToken tok = none := by
  unfold extractAmountWith amount_token
  cases hs : searchM (matchAmountAt kw) props with
  | none => simp [Except.isOk, Except.toBool]
  | some p =>
    obtain ⟨i, tok, cur⟩ := p
    cases hv : parseFloatToken tok with
    | none => simp [Except.isOk, Except.toBool, hv]
    | some v => simp [Except.isOk, Except.toBool, hv]

theorem mkTierData_isOk (nb : Chars × Chars) :
    ((mkTierData nb).isOk = true) ↔ ¬ TierBad nb := by
  unfold mkTierData TierBad
  rw [except_bind_isOk]
  constructor
  · rintro ⟨x, hx, h⟩
    rw [except_bind_isOk] at h
    obtain ⟨y, hy, _⟩ := h
    rintro (hbad | hbad)
    · have := (extractAmountWith_isOk nb.2 "amount".data).mp
        (by simp [hx, Except.isOk, Except.toBool])
      exact this hbad
    · have := (extract_number_property_isOk nb.2 "max_sponsors".data).mp
        (by simp [hy, Except.isOk, Except.toBool])
      exact this hbad
  · intro h
    have h1 : ((extractAmountWith nb.2 "amount".data).isOk = true) :=
      (extractAmountWith_isOk nb.2 "amount".data).mpr (fun hb => h (Or.inl hb))
    have h2 : ((extract_number_property nb.2 "max_sponsors".data).isOk = true) :=
      (extract_number_property_isOk nb.2 "max_sponsors".data).mpr (fun hb => h (Or.inr hb))
    cases ha : extractAmountWith nb.2 "amount".data with
    | error e => rw [ha] at h1; simp [Except.isOk, Except.toBool] at h1
    | ok amount =>
      refine ⟨amount, rfl, ?_⟩
      rw [except_bind_isOk]
      cases hm : extract_number_property nb.2 "max_sponsors".data with
      | error e => rw [hm] at h2; simp [Except.isOk, Except.toBool] at h2
      | ok ms =>
        exact ⟨ms, rfl, by simp [pure, Except.pure, Except.isOk, Except.toBool]⟩

theorem mkGoalData_isOk (nb : Chars × Chars) :
    ((mkGoalData nb).isOk = true) ↔ ¬ GoalBad nb := by
  unfold mkGoalData GoalBad
  rw [except_bind_isOk]
  constructor
  · rintro ⟨x, hx, h⟩
    rw [except_bind_isOk] at h
    obtain ⟨y, hy, _⟩ := h
    rintro (hbad | hbad)
    · have := (extractAmountWith_isOk nb.2 "target".data).mp
        (by simp [hx, Except.isOk, Except.toBool])
      exact this hbad
    · have := (extractAmountWith_isOk nb.2 "current".data).mp
        (by simp [hy, Except.isOk, Except.toBool])
      exact this hbad
  · intro h
    have h1 : ((extractAmountWith nb.2 "target".data).isOk = true) :=
      (extractAmountWith_isOk nb.2 "target".data).mpr (fun hb => h (Or.inl hb))
    have h2 : ((extractAmountWith nb.2 "current".data).isOk = true) :=
      (extractAmountWith_isOk nb.2 "current".data).mpr (fun hb => h (Or.inr hb))
    cases ha : extractAmountWith nb.2 "target".data with
    | error e => rw [ha] at h1; simp [Except.isOk, Except.toBool] at h1
    | ok target =>
      refine ⟨target, rfl, ?_⟩
      rw [except_bind_isOk]
      cases hm : extractAmountWith nb.2 "current".data with
      | error e => rw [hm] at h2; simp [Except.isOk, Except.toBool] at h2
      | ok current =>
        exact ⟨current, rfl, by simp [pure, Except.pure, Except.isOk, Except.toBool]⟩

theorem extract_tiers_eq_mapM (text : Chars) :
    extract_tiers text = (namedItems text "tiers".data "tier".data).mapM mkTierData := by
  unfold extract_tiers namedItems
  cases extract_balanced_block text "tiers".data with
  | none => rfl
  | some bt =>
    by_cases hbt : bt = []
    · simp only [if_pos hbt]
      rfl
    · simp only [if_neg hbt]

theorem extract_goals_eq_mapM (text : Chars) :
    extract_goals text = (namedItems text "goals".data "goal".data).mapM mkGoalData := by
  unfold extract_goals namedItems
  cases extract_balanced_block text "goals".data with
  | none => rfl
  | some bt =>
    by_cases hbt : bt = []
    · simp only [if_pos hbt]
      rfl
    · simp only [if_neg hbt]

theorem simple_parse_isOk_iff (input : Chars) :
    ((simple_parse input).isOk = true) ↔
      ((searchM matchFundingAt (stripComments input)).isSome = true ∧
       ¬ NumPropBad (stripComments input) "min_amount".data ∧
       ¬ NumPropBad (stripComments input) "max_amount".data ∧
       (∀ nb ∈ namedItems (stripComments input) "tiers".data "tier".data, ¬ TierBad nb) ∧
       (∀ nb ∈ namedItems (stripComments input) "goals".data "goal".data, ¬ GoalBad nb)) := by
  simp only [simple_parse]
  cases hsearch : searchM matchFundingAt (stripComments input) with
  | none =>
    simp [Except.isOk, Except.toBool]
  | some p =>
    obtain ⟨i, pname⟩ := p
    have hsome : (searchM matchFundingAt (stripComments input)).isSome = true := by
      rw [hsearch]; rfl
    cases hmin : extract_number_property (stripComments input) "min_amount".data with
    | error e =>
      have hbad : NumPropBad (stripComments input) "min_amount".data := by
        by_contra hb
        have := (extract_number_property_isOk (stripComments input) "min_amount".data).mpr hb
        rw [hmin] at this
        simp [Except.isOk, Except.toBool] at this
      simp [Except.isOk, Except.toBool, Bind.bind, Except.bind, hbad]
    | ok minA =>
      have hmingood : ¬ NumPropBad (stripComments input) "min_amount".data :=
        (extract_number_property_isOk (stripComments input) "min_amount".data).mp
          (by rw [hmin]; rfl)
      cases hmax : extract_number_property (stripComments input) "max_amount".data with
      | error e =>
        have hbad : NumPropBad (stripComments input) "max_amount".data := by
          by_contra hb
          have := (extract_number_property_isOk (stripComments input) "max_amount".data).mpr hb
          rw [hmax] at this
          simp [Except.isOk, Except.toBool] at this
        simp [Except.isOk, Except.toBool, Bind.bind, Except.bind, hbad]
      | ok maxA =>
        have hmaxgood : ¬ NumPropBad (stripComments input) "max_amount".data :=
          (extract_number_property_isOk (stripComments input) "max_amount".data).mp
            (by rw [hmax]; rfl)
        cases htier : extract_tiers (stripComments input) with
        | error e =>
          have hbad : ∃ nb ∈ namedItems (stripComments input) "tiers".data "tier".data, TierBad nb := by
            by_contra hb
            push_neg at hb
            have : ((extract_tiers (stripComments input)).isOk = true) := by
              rw [extract_tiers_eq_mapM]
              exact (mapM_isOk_iff mkTierData _).mpr
                (fun nb hnb => (mkTierData_isOk nb).mpr (hb nb hnb))
            rw [htier] at this
            simp [Except.isOk, Except.toBool] at this
          obtain ⟨nb, hnb, hbadnb⟩ := hbad
          simp only [Except.isOk, Except.toBool, Bind.bind, Except.bind]
          constructor
          · intro h
            cases h
          · rintro ⟨-, -, -, htiers, -⟩
            exact absurd hbadnb (htiers nb hnb)
        | ok tiers =>
          have htiergood : ∀ nb ∈ namedItems (stripComments input) "tiers".data "tier".data, ¬ TierBad nb := by
            intro nb hnb
            have : ((extract_tiers (stripComments input)).isOk = true) := by rw [htier]; rfl
            rw [extract_tiers_eq_mapM] at this
            exact (mkTierData_isOk nb).mp ((mapM_isOk_iff mkTierData _).mp this nb hnb)
          cases hgoal : extract_goals (stripComments input) with
          | error e =>
            have hbad : ∃ nb ∈ namedItems (stripComments input) "goals".data "goal".data, GoalBad nb := by
              by_contra hb
              push_neg at hb
              have : ((extract_goals (stripComments input)).isOk = true) := by
                rw [extract_goals_eq_mapM]
                exact (mapM_isOk_iff mkGoalData _).mpr
                  (fun nb hnb => (mkGoalData_isOk nb).mpr (hb nb hnb))
              rw [hgoal] at this
              simp [Except.isOk, Except.toBool] at this
            obtain ⟨nb, hnb, hbadnb⟩ := hbad
            simp only [Except.isOk, Except.toBool, Bind.bind, Except.bind]
            constructor
            · intro h
              cases h
            · rintro ⟨-, -, -, -, hgoals⟩
              exact absurd hbadnb (hgoals nb hnb)
          | ok goals =>
            have hgoalgood : ∀ nb ∈ namedItems (stripComments input) "goals".data "goal".data, ¬ GoalBad nb := by
              intro nb hnb
              have : ((extract_goals (stripComments input)).isOk = true) := by rw [hgoal]; rfl
              rw [extract_goals_eq_mapM] at this
              exact (mkGoalData_isOk nb).mp ((mapM_isOk_iff mkGoalData _).mp this nb hnb)
            simp only [Bind.bind, Except.bind, pure, Except.pure]
            constructor
            · intro _
              exact ⟨rfl, hmingood, hmaxgood, htiergood, hgoalgood⟩
            · intro _
              rfl

theorem except_map_isOk {α β : Type} (f : α → β) (a : Except Chars α) :
    (a.map f).isOk = a.isOk := by
  cases a <;> rfl

theorem buildTier_isOk (td : TierData) :
    ((buildTier td).isOk = true) ↔
      ¬ ∃ v, td.max_sponsors = some v ∧ v ≠ 0 ∧ pyFloatInfThreshold ≤ v := by
  constructor
  · intro hok
    rintro ⟨v, hv, hne, hthr⟩
    unfold buildTier at hok
    rw [hv] at hok
    simp [if_neg hne, if_pos hthr, Except.isOk, Except.toBool] at hok
  · intro hnex
    unfold buildTier
    cases hms : td.max_sponsors with
    | none => rfl
    | some v =>
      by_cases h0 : v = 0
      · simp only [if_pos h0]
        rfl
      · by_cases hthr : pyFloatInfThreshold ≤ v
        · exact absurd ⟨v, hms, h0, hthr⟩ hnex
        · simp only [if_neg h0, if_neg hthr]
          rfl

theorem build_isOk_iff (cd : ConfigData) :
    ((build_configuration cd).isOk = true) ↔
      ∀ td ∈ cd.tiers, (buildTier td).isOk = true := by
  rw [build_configuration_eq, except_map_isOk, mapM_isOk_iff buildTier cd.tiers]

theorem mapM_ok_mem {α β : Type} (f : α → Except Chars β) :
    ∀ (l : List α) (r : List β), l.mapM f = .ok r →
      (∀ x ∈ l, ∃ y ∈ r, f x = .ok y) ∧ (∀ y ∈ r, ∃ x ∈ l, f x = .ok y) := by
  intro l
  induction l with
  | nil =>
    intro r h
    simp only [List.mapM_nil, pure, Except.pure, Except.ok.injEq] at h
    subst h
    exact ⟨fun x hx => absurd hx (by simp), fun y hy => absurd hy (by simp)⟩
  | cons a l ih =>
    intro r h
    rw [List.mapM_cons] at h
    cases ha : f a with
    | error e => rw [ha] at h; simp [Bind.bind, Except.bind] at h
    | ok b =>
      rw [ha] at h
      cases hl : l.mapM f with
      | error e => rw [hl] at h; simp [Bind.bind, Except.bind] at h
      | ok bs =>
        rw [hl] at h
        simp only [Bind.bind, Except.bind, pure, Except.pure, Except.ok.injEq] at h
        subst h
        obtain ⟨fw, bw⟩ := ih bs hl
        constructor
        · intro x hx
          rcases List.mem_cons.mp hx with hx | hx
          · subst hx
            exact ⟨b, by simp, ha⟩
          · obtain ⟨y, hy, hfy⟩ := fw x hx
            exact ⟨y, by simp [hy], hfy⟩
        · intro y hy
          rcases List.mem_cons.mp hy with hy | hy
          · subst hy
            exact ⟨a, by simp, ha⟩
          · obtain ⟨x, hx, hfx⟩ := bw y hy
            exact ⟨x, by simp [hx], hfx⟩

theorem mkTierData_ok_max_sponsors {nb : Chars × Chars} {td : TierData}
    (h : mkTierData nb = .ok td) :
    extract_number_property nb.2 "max_sponsors".data = .ok td.max_sponsors := by
  unfold mkTierData at h
  cases ha : extractAmountWith nb.2 "amount".data with
  | error e => rw [ha] at h; simp [Bind.bind, Except.bind] at h
  | ok amount =>
    rw [ha] at h
    cases hm : extract_number_property nb.2 "max_sponsors".data with
    | error e => rw [hm] at h; simp [Bind.bind, Except.bind] at h
    | ok ms =>
      rw [hm] at h
      simp only [Bind.bind, Except.bind, pure, Except.pure, Except.ok.injEq] at h
      subst h
      rfl

theorem extract_number_property_ok_some {text kw : Chars} {v : Rat}
    (h : extract_number_property text kw = .ok (some v)) :
    ∃ tok, extract_number_token text kw = some tok ∧ parseFloatToken tok = some v := by
  unfold extract_number_property at h
  split at h
  · simp at h
  · rename_i tok htok
    split at h
    · rename_i v2 hv2
      simp only [Except.ok.injEq, Option.some.injEq] at h
      subst h
      exact ⟨tok, htok, hv2⟩
    · simp at h

theorem build_tiers_overflow_iff {input : Chars} {cd : ConfigData}
    (hsp : simple_parse input = .ok cd) :
    ((build_configuration cd).isOk = true) ↔
      ∀ nb ∈ namedItems (stripComments input) "tiers".data "tier".data, ¬ TierOverflow nb := by
  obtain ⟨-, -, -, -, -, htier, -⟩ := simple_parse_ok_inv hsp
  rw [extract_tiers_eq_mapM] at htier
  obtain ⟨fw, bw⟩ := mapM_ok_mem mkTierData _ _ htier
  rw [build_isOk_iff]
  constructor
  · intro h nb hnb hover
    obtain ⟨tok, v, htok, hv, hne, hthr⟩ := hover
    obtain ⟨td, htd, hmk⟩ := fw nb hnb
    have hms := mkTierData_ok_max_sponsors hmk
    have hmsv : td.max_sponsors = some v := by
      unfold extract_number_property at hms
      rw [htok] at hms
      simp only [hv, Except.ok.injEq] at hms
      exact hms.symm
    exact (buildTier_isOk td).mp (h td htd) ⟨v, hmsv, hne, hthr⟩
  · intro h td htd
    obtain ⟨nb, hnb, hmk⟩ := bw td htd
    rw [buildTier_isOk]
    rintro ⟨v, hv, hne, hthr⟩
    have hms := mkTierData_ok_max_sponsors hmk
    rw [hv] at hms
    obtain ⟨tok, htok, hvtok⟩ := extract_number_property_ok_some hms
    exact h nb hnb ⟨tok, v, htok, hvtok, hne, hthr⟩

theorem parse_text_isOk_iff (s : String) :
    ((parse_text s).isOk = true) ↔
      (((simple_parse s.data).isOk = true) ∧
       ∀ nb ∈ namedItems (stripComments s.data) "tiers".data "tier".data, ¬ TierOverflow nb) := by
  unfold parse_text
  cases hsp : simple_parse s.data with
  | error e =>
    simp [Except.isOk, Except.toBool]
  | ok cd =>
    have hb := build_tiers_overflow_iff hsp
    dsimp only
    cases hbc : build_configuration cd with
    | error e2 =>
      rw [hbc] at hb
      simp only [Except.isOk, Except.toBool]
      constructor
      · intro h
        cases h
      · rintro ⟨-, hno⟩
        exact absurd (hb.mpr hno) (by simp [Except.isOk, Except.toBool])
    | ok c =>
      rw [hbc] at hb
      exact ⟨fun _ => ⟨rfl, hb.mp rfl⟩, fun _ => rfl⟩

/-- C2 (amended): the parse raises exactly when the top-level funding header
cannot be located in the comment-stripped text, or some matched numeric
token (for `min_amount`, `max_amount`, a tier's `amount` or `max_sponsors`,
a goal's `target` or `current`) is rejected by float conversion, or a
tier's `max_sponsors` converts to a truthy float that overflowed to
infinity so that the builder's `int()` raises `OverflowError`; every
other nested-field problem resolves to a default or absent value without
raising. -/
theorem c2_parse_error_iff (s : String) :
    (parse_text s).isOk = false ↔
      (searchM matchFundingAt (stripComments s.data) = none ∨
       NumPropBad (stripComments s.data) "min_amount".data ∨
       NumPropBad (stripComments s.data) "max_amount".data ∨
       (∃ nb ∈ namedItems (stripComments s.data) "tiers".data "tier".data, TierBad nb) ∨
       (∃ nb ∈ namedItems (stripComments s.data) "goals".data "goal".data, GoalBad nb) ∨
       (∃ nb ∈ namedItems (stripComments s.data) "tiers".data "tier".data, TierOverflow nb)) := by
  rw [show ((parse_text s).isOk = false) ↔ ¬ ((parse_text s).isOk = true) by
    cases (parse_text s).isOk <;> simp]
  rw [parse_text_isOk_iff, simple_parse_isOk_iff]
  constructor
  · intro h
    by_cases h1 : (searchM matchFundingAt (stripComments s.data)).isSome = true
    · by_cases h2 : NumPropBad (stripComments s.data) "min_amount".data
      · exact Or.inr (Or.inl h2)
      · by_cases h3 : NumPropBad (stripComments s.data) "max_amount".data
        · exact Or.inr (Or.inr (Or.inl h3))
        · by_cases h4 : ∃ nb ∈ namedItems (stripComments s.data) "tiers".data "tier".data, TierBad nb
          · exact Or.inr (Or.inr (Or.inr (Or.inl h4)))
          · by_cases h5 : ∃ nb ∈ namedItems (stripComments s.data) "goals".data "goal".data, GoalBad nb
            · exact Or.inr (Or.inr (Or.inr (Or.inr (Or.inl h5))))
            · by_cases h6 : ∃ nb ∈ namedItems (stripComments s.data) "tiers".data "tier".data, TierOverflow nb
              · exact Or.inr (Or.inr (Or.inr (Or.inr (Or.inr h6))))
              · exfalso
                push_neg at h4 h5 h6
                exact h ⟨⟨h1, h2, h3, h4, h5⟩, h6⟩
    · left
      cases hs : searchM matchFundingAt (stripComments s.data) with
      | none => rfl
      | some p => rw [hs] at h1; simp at h1
  · rintro (h | h | h | h | h | h) ⟨⟨hs, hmin, hmax, htiers, hgoals⟩, hnoover⟩
    · rw [h] at hs
      simp at hs
    · exact hmin h
    · exact hmax h
    · obtain ⟨nb, hnb, hbad⟩ := h
      exact htiers nb hnb hbad
    · obtain ⟨nb, hnb, hbad⟩ := h
      exact hgoals nb hnb hbad
    · obtain ⟨nb, hnb, hbad⟩ := h
      exact hnoover nb hnb hbad

/-- Witness for C2 at the malformed-number input of the counterexample. -/
theorem c2_parse_error_iff_witness :
    (parse_text "funding \x22p\x22 \x7b min_amount 1.2.3 \x7d").isOk = false :=
  (c2_parse_error_iff "funding \x22p\x22 \x7b min_amount 1.2.3 \x7d").mpr
    (Or.inr (Or.inl ⟨"1.2.3".data, by decide, by decide⟩))

/-! ## Claim C3: order of extracted blocks -/

theorem matchNamedAt_nil (kw : Chars) : matchNamedAt kw [] = none := by
  cases kw with
  | nil => rfl
  | cons k kr => rfl

theorem matchNamedAt_space_head {k0 : Char} {kr : Chars} {c : Char} {t : Chars}
    (hk : isSpaceCh k0 = false) (hc : isSpaceCh c = true) :
    matchNamedAt (k0 :: kr) (c :: t) = none := by
  have hne : ¬ c = k0 := by
    intro h
    rw [h, hk] at hc
    cases hc
  unfold matchNamedAt
  rw [litP_none_head hne]
  rfl

theorem searchM_ws_skip {A : Type} {m : Chars → Option A}
    (hm : ∀ (c : Char) (t : Chars), isSpaceCh c = true → m (c :: t) = none) :
    ∀ (sep v : Chars), (∀ c ∈ sep, isSpaceCh c = true) →
      searchM m (sep ++ v) = (searchM m v).map (fun q => (q.1 + sep.length, q.2)) := by
  intro sep
  induction sep with
  | nil =>
    intro v _
    simp only [List.nil_append, List.length_nil]
    cases searchM m v with
    | none => rfl
    | some q => simp
  | cons c sep ih =>
    intro v hsep
    have h0 : m (c :: (sep ++ v)) = none := hm c _ (hsep c (by simp))
    have step : searchM m ((c :: sep) ++ v) =
        (searchM m (sep ++ v)).map (fun p => (p.1 + 1, p.2)) := by
      simp only [List.cons_append, searchM, List.append_eq, h0]
    rw [step, ih v (fun d hd => hsep d (by simp [hd]))]
    cases searchM m v with
    | none => rfl
    | some q =>
      simp only [Option.map_some, List.length_cons]
      have : q.1 + sep.length + 1 = q.1 + (sep.length + 1) := by omega
      simp [this]

theorem matchNamedAt_blockText (kw name props rest : Chars)
    (hname : name ≠ []) (hq : ∀ c ∈ name, (!(c = dq)) = true) :
    matchNamedAt kw (blockText kw name props ++ rest) =
      some (name, props ++ rbrace :: rest) := by
  have e1 : blockText kw name props ++ rest =
      kw ++ (' ' :: dq :: (name ++ (dq :: ' ' :: lbrace :: (props ++ rbrace :: rest)))) := by
    simp [blockText]
  rw [e1]
  unfold matchNamedAt
  rw [litP_self]
  have e2 : ws1 (' ' :: dq :: (name ++ (dq :: ' ' :: lbrace :: (props ++ rbrace :: rest)))) =
      some (dq :: (name ++ (dq :: ' ' :: lbrace :: (props ++ rbrace :: rest)))) := by
    unfold ws1 tw1
    rw [List.takeWhile_cons, List.dropWhile_cons]
    simp [show isSpaceCh ' ' = true from rfl, show isSpaceCh dq = false from rfl]
  have e3 : litP [dq] (dq :: (name ++ (dq :: ' ' :: lbrace :: (props ++ rbrace :: rest)))) =
      some (name ++ (dq :: ' ' :: lbrace :: (props ++ rbrace :: rest))) := by
    simp [litP]
  have e4 : tw1 (fun c => !(c = dq)) (name ++ (dq :: ' ' :: lbrace :: (props ++ rbrace :: rest))) =
      some (name, dq :: ' ' :: lbrace :: (props ++ rbrace :: rest)) :=
    tw1_append hq hname (by simp)
  have e5 : litP [dq] (dq :: ' ' :: lbrace :: (props ++ rbrace :: rest)) =
      some (' ' :: lbrace :: (props ++ rbrace :: rest)) := by
    simp [litP]
  have e6 : ws0 (' ' :: lbrace :: (props ++ rbrace :: rest)) =
      lbrace :: (props ++ rbrace :: rest) := by
    unfold ws0
    rw [List.dropWhile_cons, List.dropWhile_cons]
    simp [show isSpaceCh ' ' = true from rfl, show isSpaceCh lbrace = false from rfl]
  have e7 : litP [lbrace] (lbrace :: (props ++ rbrace :: rest)) =
      some (props ++ rbrace :: rest) := by
    simp [litP]
  simp [e2, e3, e4, e5, e6, e7]

theorem blockText_length (kw name props : Chars) :
    (blockText kw name props).length =
      kw.length + name.length + props.length + 6 := by
  simp [blockText]
  omega

theorem namedBlocksLoop_buildText {k0 : Char} {kr : Chars}
    (hk : isSpaceCh k0 = false) :
    ∀ (items : List (Chars × Chars × Chars)) (last : Chars) (fuel : Nat),
      (∀ t ∈ items, WfTriple t) → (∀ c ∈ last, isSpaceCh c = true) →
      (buildText (k0 :: kr) items last).length < fuel →
      namedBlocksLoop (k0 :: kr) fuel (buildText (k0 :: kr) items last) =
        items.map (fun t => (t.2.1, t.2.2)) := by
  intro items
  induction items with
  | nil =>
    intro last fuel _ hlast hfuel
    cases fuel with
    | zero => omega
    | succ f =>
      have hnone : searchM (matchNamedAt (k0 :: kr)) (buildText (k0 :: kr) [] last) = none := by
        apply searchM_none_of_all
        intro j
        unfold buildText
        cases hdrop : last.drop j with
        | nil => exact matchNamedAt_nil _
        | cons c t =>
          have hc : c ∈ last := by
            have : c ∈ last.drop j := by rw [hdrop]; simp
            exact List.mem_of_mem_drop this
          exact matchNamedAt_space_head hk (hlast c hc)
      unfold namedBlocksLoop
      rw [hnone]
      rfl
  | cons item items ih =>
    intro last fuel hwf hlast hfuel
    obtain ⟨sep, name, props⟩ := item
    obtain ⟨hsep, hname, hq, hbal⟩ := hwf (sep, name, props) (by simp)
    have hq2 : ∀ c ∈ name, (!(c = dq)) = true := by
      intro c hc
      simp [hq c hc]
    cases fuel with
    | zero => omega
    | succ f =>
      have hbuild : buildText (k0 :: kr) ((sep, name, props) :: items) last =
          sep ++ (blockText (k0 :: kr) name props ++ buildText (k0 :: kr) items last) := by
        simp [buildText]
      have hsearch : searchM (matchNamedAt (k0 :: kr))
          (buildText (k0 :: kr) ((sep, name, props) :: items) last) =
          some (0 + sep.length,
            (name, props ++ rbrace :: buildText (k0 :: kr) items last)) := by
        rw [hbuild]
        rw [searchM_ws_skip (fun c t hc => matchNamedAt_space_head hk hc) sep _ hsep]
        rw [searchM_of_match (matchNamedAt_blockText (k0 :: kr) name props _ hname hq2)]
        rfl
      unfold namedBlocksLoop
      rw [hsearch]
      dsimp only
      have hprops : balancedAfterBrace (props ++ rbrace :: buildText (k0 :: kr) items last) = props :=
        balancedAfterBrace_closed hbal _
      rw [hprops]
      have hdrop : (props ++ rbrace :: buildText (k0 :: kr) items last).drop (props.length + 1) =
          buildText (k0 :: kr) items last := by
        rw [show props.length + 1 = props.length + 1 from rfl]
        rw [List.drop_append]
        rfl
      rw [hdrop]
      have hlen : (buildText (k0 :: kr) items last).length < f := by
        have h1 : (buildText (k0 :: kr) ((sep, name, props) :: items) last).length =
            sep.length + ((k0 :: kr).length + name.length + props.length + 6) +
              (buildText (k0 :: kr) items last).length := by
          rw [hbuild]
          simp [blockText_length]
          omega
        rw [h1] at hfuel
        simp [List.length_cons] at hfuel
        omega
      rw [ih last f (fun t ht => hwf t (by simp [ht])) hlast hlen]
      rfl

/-- The repeat-extraction loop over a well-formed sequence of blocks of one
keyword returns exactly those blocks, in source order. -/
theorem extractNamedBlocks_buildText {k0 : Char} {kr : Chars}
    (hk : isSpaceCh k0 = false) (items : List (Chars × Chars × Chars))
    (last : Chars) (hwf : ∀ t ∈ items, WfTriple t)
    (hlast : ∀ c ∈ last, isSpaceCh c = true) :
    extractNamedBlocks (k0 :: kr) (buildText (k0 :: kr) items last) =
      items.map (fun t => (t.2.1, t.2.2)) := by
  unfold extractNamedBlocks
  exact namedBlocksLoop_buildText hk items last _ hwf hlast (by omega)

/-- C3 (amended): beneficiaries, tiers and goals appear in source order (the
shared repeat-extraction loop returns well-formed blocks of one keyword in
source order), and entities are appended by pure `add_*` appends with no
deduplication or sorting; funding sources, however, are grouped by platform
keyword in the parser's fixed platform order, preserving source order only
within each platform (concrete conjunct: the patreon-a, github-b, custom-c,
patreon-d source text yields github-b, patreon-a, patreon-d, custom-c). -/
theorem c3_order_amended :
    (∀ (c : FundingConfiguration) (b : Beneficiary) (s : FundingSource)
        (t : FundingTier) (g : FundingGoal),
        (c.add_beneficiary b).beneficiaries = c.beneficiaries ++ [b] ∧
        (c.add_funding_source s).funding_sources = c.funding_sources ++ [s] ∧
        (c.add_tier t).tiers = c.tiers ++ [t] ∧
        (c.add_goal g).goals = c.goals ++ [g]) ∧
    (∀ (k0 : Char) (kr : Chars), isSpaceCh k0 = false →
      ∀ (items : List (Chars × Chars × Chars)) (last : Chars),
        (∀ t ∈ items, WfTriple t) → (∀ c ∈ last, isSpaceCh c = true) →
        extractNamedBlocks (k0 :: kr) (buildText (k0 :: kr) items last) =
          items.map (fun t => (t.2.1, t.2.2))) ∧
    (extract_sources
        "sources \x7b patreon \x22a\x22 \x7b \x7d github_sponsors \x22b\x22 \x7b \x7d custom \x22c\x22 \x7b \x7d patreon \x22d\x22 \x7b \x7d \x7d".data =
      [{ platform := "github_sponsors".data, username := "b".data, type := none,
         active := none, config := [], url := none },
       { platform := "patreon".data, username := "a".data, type := none,
         active := none, config := [], url := none },
       { platform := "patreon".data, username := "d".data, type := none,
         active := none, config := [], url := none },
       { platform := "custom".data, username := "c".data, type := none,
         active := none, config := [], url := none }]) := by
  refine ⟨?_, ?_, by decide⟩
  · intro c b s t g
    exact ⟨rfl, rfl, rfl, rfl⟩
  · intro k0 kr hk items last hwf hlast
    exact extractNamedBlocks_buildText hk items last hwf hlast

/-- Witness for C3 at a concrete two-beneficiary block list. -/
theorem c3_order_amended_witness :
    (isSpaceCh 'b' = false ∧
      (∀ t ∈ [((" ".data : Chars), ("A".data : Chars), (" x ".data : Chars)),
              ((" ".data : Chars), ("B".data : Chars), (" y \x7b z \x7d ".data : Chars))], WfTriple t) ∧
      (∀ c ∈ ("\n".data : Chars), isSpaceCh c = true)) ∧
    extractNamedBlocks "beneficiary".data
        (buildText "beneficiary".data
          [(" ".data, "A".data, " x ".data), (" ".data, "B".data, " y \x7b z \x7d ".data)]
          "\n".data) =
      [("A".data, " x ".data), ("B".data, " y \x7b z \x7d ".data)] :=
  ⟨⟨by decide, by decide, by decide⟩,
   c3_order_amended.2.1 'b' "eneficiary".data (by decide)
     [(" ".data, "A".data, " x ".data), (" ".data, "B".data, " y \x7b z \x7d ".data)]
     "\n".data (by decide) (by decide)⟩

end FundingDSL
